import Mathlib

/-!
Shallow embedding of the multi-pane workspace and drag-to-dock tab
management engine of the db_gui repository: the Pinia workspace store
(panes, tabs, splitting, closing), the docking service (pane rectangle
registry, drop-position classification, drag state), and the
mousemove-driven hover-confirmation machine of the workspace pane
component.  Identifier generation (generateId) is modelled by passing
the freshly generated identifier as an explicit argument.
-/

namespace DbGui

/-- Tab kinds: the closed enumeration of renderers. -/
inductive TabType
  | dataGrid
  | sqlEditor
  | tableCreator
  | tableDesigner
  | schemaCreator
  deriving DecidableEq

/-- One open work surface.  The `metadata` bag is modelled as an
association list with opaque string values. -/
structure Tab where
  id : String
  type : TabType
  title : String
  connectionId : String
  schema : Option String := none
  table : Option String := none
  query : Option String := none
  isDirty : Bool := false
  metadata : List (String × String) := []
  deriving DecidableEq

/-- An ordered collection of tabs plus the identifier of the active one. -/
structure Pane where
  id : String
  tabs : List Tab
  activeTabId : Option String
  deriving DecidableEq

/-- The global split orientation. -/
inductive SplitDir
  | horizontal
  | vertical
  deriving DecidableEq

/-- The workspace store state: the pane list, the active pane id and the
global split direction. -/
structure Workspace where
  panes : List Pane
  activePaneId : String
  splitDirection : Option SplitDir
  deriving DecidableEq

/-- The initial state: a single empty pane with the well-known id. -/
def initialWorkspace : Workspace :=
  { panes := [{ id := "main", tabs := [], activeTabId := none }],
    activePaneId := "main",
    splitDirection := none }

/-- JavaScript `x || null` on a nullable string: the empty string is falsy
and collapses to null. -/
def jsOrNull : Option String → Option String
  | some s => if s = "" then none else some s
  | none => none

/-- JavaScript `array.splice(i, 0, x)`: insertion with clamping past the
end of the list. -/
def jsInsertIdx (i : Nat) (x : α) (l : List α) : List α :=
  l.take i ++ x :: l.drop i

/-- `panes.find(p => p.id === paneId)`: the first pane with the id. -/
def findPaneList (ps : List Pane) (pid : String) : Option Pane :=
  match ps with
  | [] => none
  | p :: rest => if p.id = pid then some p else findPaneList rest pid

/-- In-place mutation of the pane found by `find`: update the first pane
with the given id, leave everything else unchanged. -/
def updatePaneList (ps : List Pane) (pid : String) (f : Pane → Pane) : List Pane :=
  match ps with
  | [] => []
  | p :: rest => if p.id = pid then f p :: rest else p :: updatePaneList rest pid f

/-- `panes.findIndex(p => p.id === paneId)` (as an option). -/
def findPaneIdx (ps : List Pane) (pid : String) : Option Nat :=
  match ps with
  | [] => none
  | p :: rest => if p.id = pid then some 0 else (findPaneIdx rest pid).map (· + 1)

/-- `tabs.findIndex(t => t.id === tabId)` (as an option). -/
def findTabIdx (ts : List Tab) (tid : String) : Option Nat :=
  match ts with
  | [] => none
  | t :: rest => if t.id = tid then some 0 else (findTabIdx rest tid).map (· + 1)

/-- `tabs.find(t => t.id === tabId)`. -/
def findTabById (ts : List Tab) (tid : String) : Option Tab :=
  match ts with
  | [] => none
  | t :: rest => if t.id = tid then some t else findTabById rest tid

/-- Whether some tab in the list carries the id. -/
def hasTabId (ts : List Tab) (tid : String) : Bool :=
  match ts with
  | [] => false
  | t :: rest => if t.id = tid then true else hasTabId rest tid

/-- Remove the first tab with the given id (splice at findIndex), the
no-op when the id is absent. -/
def removeFirstById (ts : List Tab) (tid : String) : List Tab :=
  match findTabIdx ts tid with
  | none => ts
  | some i => ts.eraseIdx i

/-- The stale-active fixup `if (pane.activeTabId && !pane.tabs.find(...))`:
a truthy active id absent from the tabs is replaced by the fallback. -/
def fixActive (active : Option String) (ts : List Tab) (fallback : Option String) :
    Option String :=
  match active with
  | some a => if a ≠ "" ∧ hasTabId ts a = false then fallback else some a
  | none => none

/-- `useWorkspaceStore().activePane`. -/
def findPane (w : Workspace) (pid : String) : Option Pane :=
  findPaneList w.panes pid

/-- Options bag of `openTab`. -/
structure OpenTabOptions where
  schema : Option String := none
  table : Option String := none
  query : Option String := none
  metadata : List (String × String) := []
  forceNew : Bool := false

/-- The duplicate search inside `openTab`: the first tab of the active
pane matching connection id, type, schema and table. -/
def findMatchingTab (ts : List Tab) (connectionId : String) (type : TabType)
    (schema table : Option String) : Option Tab :=
  match ts with
  | [] => none
  | t :: rest =>
    if t.connectionId = connectionId ∧ t.type = type ∧
        t.schema = schema ∧ t.table = table then some t
    else findMatchingTab rest connectionId type schema table

/-- `openTab(connectionId, type, title, options)`.  The generated id is
passed explicitly as `freshId`; the function returns the id given back to
the caller together with the new store state. -/
def openTab (w : Workspace) (freshId : String) (connectionId : String)
    (type : TabType) (title : String) (options : OpenTabOptions) :
    String × Workspace :=
  match findPane w w.activePaneId with
  | none => ("", w)
  | some pane =>
    let existing :=
      if options.forceNew then none
      else findMatchingTab pane.tabs connectionId type options.schema options.table
    match existing with
    | some t =>
      let newPanes := updatePaneList w.panes w.activePaneId
        (fun p => { p with activeTabId := some t.id })
      (t.id, { w with panes := newPanes })
    | none =>
      let tab : Tab :=
        { id := freshId, type := type, title := title,
          connectionId := connectionId, schema := options.schema,
          table := options.table, query := options.query,
          isDirty := false, metadata := options.metadata }
      let newPanes := updatePaneList w.panes w.activePaneId
        (fun p => { p with tabs := p.tabs ++ [tab], activeTabId := some freshId })
      (freshId, { w with panes := newPanes })

/-- `closePane(paneId)`. -/
def closePane (w : Workspace) (pid : String) : Workspace :=
  if w.panes.length ≤ 1 then w
  else
    match findPaneIdx w.panes pid with
    | none => w
    | some index =>
      let newPanes := w.panes.eraseIdx index
      let newActive :=
        if w.activePaneId = pid then
          (jsOrNull ((newPanes[0]?).map Pane.id)).getD "main"
        else w.activePaneId
      { panes := newPanes,
        activePaneId := newActive,
        splitDirection := if newPanes.length = 1 then none else w.splitDirection }

/-- `closeTab(paneId, tabId)`. -/
def closeTab (w : Workspace) (pid tid : String) : Workspace :=
  match findPane w pid with
  | none => w
  | some pane =>
    match findTabIdx pane.tabs tid with
    | none => w
    | some tabIndex =>
      let newTabs := pane.tabs.eraseIdx tabIndex
      let newActive :=
        if pane.activeTabId = some tid then
          jsOrNull ((newTabs[tabIndex - 1]?).map Tab.id)
        else pane.activeTabId
      let newPanes := updatePaneList w.panes pid
        (fun p => { p with tabs := newTabs, activeTabId := newActive })
      let w1 : Workspace := { w with panes := newPanes }
      if newTabs.length = 0 ∧ 1 < w1.panes.length then closePane w1 pid else w1

/-- `closeOtherTabs(paneId, keepTabId)`. -/
def closeOtherTabs (w : Workspace) (pid keepTabId : String) : Workspace :=
  match findPane w pid with
  | none => w
  | some _ =>
    let newPanes := updatePaneList w.panes pid (fun p =>
      { p with tabs := p.tabs.filter (fun t => t.id = keepTabId),
               activeTabId := some keepTabId })
    { w with panes := newPanes }

/-- `closeSavedTabs(paneId)`: for each snapshot-saved tab, splice out its
first occurrence; then fix a stale active id and auto-close. -/
def closeSavedTabs (w : Workspace) (pid : String) : Workspace :=
  match findPane w pid with
  | none => w
  | some pane =>
    let savedTabs := pane.tabs.filter (fun t => !t.isDirty)
    let newTabs := savedTabs.foldl (fun acc t => removeFirstById acc t.id) pane.tabs
    let newActive := fixActive pane.activeTabId newTabs (jsOrNull ((newTabs[0]?).map Tab.id))
    let newPanes := updatePaneList w.panes pid
      (fun p => { p with tabs := newTabs, activeTabId := newActive })
    let w1 : Workspace := { w with panes := newPanes }
    if newTabs.length = 0 ∧ 1 < w1.panes.length then closePane w1 pid else w1

/-- `closeTabsToRight(paneId, tabId)`. -/
def closeTabsToRight (w : Workspace) (pid tid : String) : Workspace :=
  match findPane w pid with
  | none => w
  | some pane =>
    match findTabIdx pane.tabs tid with
    | none => w
    | some idx =>
      let newTabs := pane.tabs.take (idx + 1)
      let newActive := fixActive pane.activeTabId newTabs
        (jsOrNull ((newTabs[newTabs.length - 1]?).map Tab.id))
      let newPanes := updatePaneList w.panes pid
        (fun p => { p with tabs := newTabs, activeTabId := newActive })
      { w with panes := newPanes }

/-- `closeActiveTab()`: a falsy (null or empty) active id aborts. -/
def closeActiveTab (w : Workspace) : Workspace :=
  match findPane w w.activePaneId with
  | none => w
  | some pane =>
    match pane.activeTabId with
    | none => w
    | some a => if a = "" then w else closeTab w pane.id a

/-- `nextTab()`. -/
def nextTab (w : Workspace) : Workspace :=
  match findPane w w.activePaneId with
  | none => w
  | some pane =>
    if pane.tabs.length = 0 then w
    else
      let currentIdx : Int :=
        match pane.activeTabId with
        | some a => match findTabIdx pane.tabs a with
          | some i => (i : Int)
          | none => -1
        | none => -1
      let nextIdx := ((currentIdx + 1) % (pane.tabs.length : Int)).toNat
      let newPanes := updatePaneList w.panes w.activePaneId
        (fun p => { p with activeTabId := (pane.tabs[nextIdx]?).map Tab.id })
      { w with panes := newPanes }

/-- `previousTab()`. -/
def previousTab (w : Workspace) : Workspace :=
  match findPane w w.activePaneId with
  | none => w
  | some pane =>
    if pane.tabs.length = 0 then w
    else
      let currentIdx : Int :=
        match pane.activeTabId with
        | some a => match findTabIdx pane.tabs a with
          | some i => (i : Int)
          | none => -1
        | none => -1
      let prevIdx : Nat :=
        if currentIdx ≤ 0 then pane.tabs.length - 1 else (currentIdx - 1).toNat
      let newPanes := updatePaneList w.panes w.activePaneId
        (fun p => { p with activeTabId := (pane.tabs[prevIdx]?).map Tab.id })
      { w with panes := newPanes }

/-- `setTabs(paneId, tabs)`: wholesale replacement with stale-active fixup. -/
def setTabs (w : Workspace) (pid : String) (tabs : List Tab) : Workspace :=
  match findPane w pid with
  | none => w
  | some pane =>
    let newActive := fixActive pane.activeTabId tabs (jsOrNull ((tabs[0]?).map Tab.id))
    let newPanes := updatePaneList w.panes pid
      (fun p => { p with tabs := tabs, activeTabId := newActive })
    { w with panes := newPanes }

/-- `reorderTabs(paneId, tabs)` just delegates to `setTabs`. -/
def reorderTabs (w : Workspace) (pid : String) (tabs : List Tab) : Workspace :=
  setTabs w pid tabs

/-- `addTabToPane(paneId, tab, index)`: the duplicate guard only checks
the target pane. -/
def addTabToPane (w : Workspace) (pid : String) (tab : Tab) (index : Nat) : Workspace :=
  match findPane w pid with
  | none => w
  | some pane =>
    if hasTabId pane.tabs tab.id then w
    else
      let newPanes := updatePaneList w.panes pid (fun p =>
        { p with tabs := jsInsertIdx index tab p.tabs, activeTabId := some tab.id })
      { w with panes := newPanes }

/-- `removeTabFromPane(paneId, tabId)`. -/
def removeTabFromPane (w : Workspace) (pid tid : String) : Workspace :=
  match findPane w pid with
  | none => w
  | some pane =>
    match findTabIdx pane.tabs tid with
    | none => w
    | some idx =>
      let newTabs := pane.tabs.eraseIdx idx
      let newActive :=
        if pane.activeTabId = some tid then jsOrNull ((newTabs[0]?).map Tab.id)
        else pane.activeTabId
      let newPanes := updatePaneList w.panes pid
        (fun p => { p with tabs := newTabs, activeTabId := newActive })
      let w1 : Workspace := { w with panes := newPanes }
      if newTabs.length = 0 ∧ 1 < w1.panes.length then closePane w1 pid else w1

/-- `setActiveTab(paneId, tabId)`: assigns unconditionally when the pane
exists. -/
def setActiveTab (w : Workspace) (pid tid : String) : Workspace :=
  match findPane w pid with
  | none => w
  | some _ =>
    let newPanes := updatePaneList w.panes pid
      (fun p => { p with activeTabId := some tid })
    { w with panes := newPanes }

/-- `setActivePane(paneId)`. -/
def setActivePane (w : Workspace) (pid : String) : Workspace :=
  { w with activePaneId := pid }

/-- An edge position accepted by `splitPane`. -/
inductive DockEdge
  | left
  | right
  | top
  | bottom
  deriving DecidableEq

/-- `splitPane(targetPaneId, position, tab?)`.  The generated pane id is
passed explicitly as `freshPaneId`.  When the target id is unknown the
new pane is pushed at the end; when a tab is supplied its id is spliced
out of every pane other than the new one. -/
def splitPane (w : Workspace) (freshPaneId targetPaneId : String)
    (position : DockEdge) (tab : Option Tab) : Workspace :=
  if 4 ≤ w.panes.length then w
  else
    let direction : SplitDir :=
      if position = .top ∨ position = .bottom then .horizontal else .vertical
    let newPane : Pane :=
      { id := freshPaneId,
        tabs := match tab with | some t => [t] | none => [],
        activeTabId := jsOrNull (tab.map Tab.id) }
    let panes1 :=
      match findPaneIdx w.panes targetPaneId with
      | none => w.panes ++ [newPane]
      | some targetIndex =>
        if position = .left ∨ position = .top then jsInsertIdx targetIndex newPane w.panes
        else jsInsertIdx (targetIndex + 1) newPane w.panes
    let panes2 :=
      match tab with
      | none => panes1
      | some t =>
        panes1.map (fun pane =>
          if pane.id = newPane.id then pane
          else
            match findTabIdx pane.tabs t.id with
            | none => pane
            | some tabIndex =>
              let nt := pane.tabs.eraseIdx tabIndex
              { pane with tabs := nt,
                          activeTabId :=
                            if pane.activeTabId = some t.id then
                              jsOrNull ((nt[0]?).map Tab.id)
                            else pane.activeTabId })
    { panes := panes2,
      activePaneId := freshPaneId,
      splitDirection := some direction }

/-- `moveTab(fromPaneId, toPaneId, tabId, toIndex)`: splice out of the
source pane, splice into the destination.  When both ids name the same
pane the two splices act on the same tab array. -/
def moveTab (w : Workspace) (fromPaneId toPaneId tid : String) (toIndex : Nat) :
    Workspace :=
  match findPane w fromPaneId, findPane w toPaneId with
  | some fromPane, some _ =>
    match findTabIdx fromPane.tabs tid with
    | none => w
    | some tabIndex =>
      match fromPane.tabs[tabIndex]? with
      | none => w
      | some tab =>
        if fromPaneId = toPaneId then
          let newPanes := updatePaneList w.panes fromPaneId (fun p =>
            { p with tabs := jsInsertIdx toIndex tab (p.tabs.eraseIdx tabIndex),
                     activeTabId := some tid })
          { w with panes := newPanes }
        else
          let panesA := updatePaneList w.panes fromPaneId (fun p =>
            let nt := p.tabs.eraseIdx tabIndex
            { p with tabs := nt,
                     activeTabId :=
                       if p.activeTabId = some tid then jsOrNull ((nt[0]?).map Tab.id)
                       else p.activeTabId })
          let panesB := updatePaneList panesA toPaneId (fun p =>
            { p with tabs := jsInsertIdx toIndex tab p.tabs, activeTabId := some tid })
          { w with panes := panesB }
  | _, _ => w

/-- Update the first tab with the given id in a tab list. -/
def updateFirstTab (ts : List Tab) (tid : String) (f : Tab → Tab) : List Tab :=
  match ts with
  | [] => []
  | t :: rest => if t.id = tid then f t :: rest else t :: updateFirstTab rest tid f

/-- The shared pane scan of `updateTabQuery` and friends: mutate the first
tab with the id across panes in order and stop. -/
def updateTabInPanes (ps : List Pane) (tid : String) (f : Tab → Tab) : List Pane :=
  match ps with
  | [] => []
  | p :: rest =>
    if hasTabId p.tabs tid then { p with tabs := updateFirstTab p.tabs tid f } :: rest
    else p :: updateTabInPanes rest tid f

/-- JavaScript object-spread merge `{...old, ...upd}` on the metadata bag. -/
def mergeMeta (old upd : List (String × String)) : List (String × String) :=
  old.filter (fun kv => !(upd.any (fun kv2 => kv2.1 = kv.1))) ++ upd

/-- `updateTabQuery(tabId, query)`. -/
def updateTabQuery (w : Workspace) (tid q : String) : Workspace :=
  { w with panes := updateTabInPanes w.panes tid (fun t => { t with query := some q }) }

/-- `setTabDirty(tabId, isDirty)`. -/
def setTabDirty (w : Workspace) (tid : String) (d : Bool) : Workspace :=
  { w with panes := updateTabInPanes w.panes tid (fun t => { t with isDirty := d }) }

/-- `updateTabMetadata(tabId, metadata)`. -/
def updateTabMetadata (w : Workspace) (tid : String) (m : List (String × String)) :
    Workspace :=
  { w with panes := updateTabInPanes w.panes tid (fun t => { t with metadata := mergeMeta t.metadata m }) }

/-- `updateTabTitle(tabId, title)`. -/
def updateTabTitle (w : Workspace) (tid ti : String) : Workspace :=
  { w with panes := updateTabInPanes w.panes tid (fun t => { t with title := ti }) }

/-- `getTabById(tabId)`: the first tab with the id across panes. -/
def getTabById (w : Workspace) (tid : String) : Option Tab :=
  w.panes.foldr (fun p acc =>
    match findTabById p.tabs tid with
    | some t => some t
    | none => acc) none

/-! ### Docking service (DockingService.ts) -/

/-- A drop position; the nullable TS `DockPosition` is `Option DockPos`. -/
inductive DockPos
  | left
  | right
  | top
  | bottom
  | center
  deriving DecidableEq

/-- An on-screen pane rectangle, in the coordinate space of pointer
events.  Coordinates are modelled as rationals. -/
structure PaneRect where
  x : ℚ
  y : ℚ
  width : ℚ
  height : ℚ
  deriving DecidableEq

/-- The docking service state: the reactive drag state together with the
pane-rectangle registry. -/
structure DragServiceState where
  isDragging : Bool
  draggedTab : Option Tab
  sourcePaneId : Option String
  targetPaneId : Option String
  dropPosition : Option DockPos
  paneRects : List (String × PaneRect)
  deriving DecidableEq

/-- `EDGE_THRESHOLD = 0.2`. -/
def edgeThreshold : ℚ := 1 / 5

/-- `paneRects.get(paneId)`. -/
def lookupRect (s : DragServiceState) (pid : String) : Option PaneRect :=
  match s.paneRects.find? (fun kv => kv.1 == pid) with
  | some kv => some kv.2
  | none => none

/-- `Map.set` semantics: replace the entry when the key is present,
append it otherwise. -/
def rectSet (l : List (String × PaneRect)) (k : String) (r : PaneRect) :
    List (String × PaneRect) :=
  if l.any (fun kv => kv.1 == k) then
    l.map (fun kv => if kv.1 == k then (k, r) else kv)
  else l ++ [(k, r)]

/-- `registerPane(paneId, rect)`. -/
def registerPane (s : DragServiceState) (pid : String) (r : PaneRect) :
    DragServiceState :=
  { s with paneRects := rectSet s.paneRects pid r }

/-- `updatePaneRect(paneId, rect)`. -/
def updatePaneRect (s : DragServiceState) (pid : String) (r : PaneRect) :
    DragServiceState :=
  { s with paneRects := rectSet s.paneRects pid r }

/-- `unregisterPane(paneId)`. -/
def unregisterPane (s : DragServiceState) (pid : String) : DragServiceState :=
  { s with paneRects := s.paneRects.filter (fun kv => kv.1 != pid) }

/-- `startDrag(tab, sourcePaneId)`. -/
def startDrag (s : DragServiceState) (tab : Tab) (sourcePaneId : String) :
    DragServiceState :=
  { s with isDragging := true, draggedTab := some tab,
           sourcePaneId := some sourcePaneId, targetPaneId := none,
           dropPosition := none }

/-- The snapshot returned by `endDrag()`. -/
structure DragSnapshot where
  tab : Option Tab
  sourcePaneId : Option String
  targetPaneId : Option String
  dropPosition : Option DockPos
  deriving DecidableEq

/-- `endDrag()`: snapshot the drag state and clear it. -/
def endDrag (s : DragServiceState) : DragSnapshot × DragServiceState :=
  ({ tab := s.draggedTab, sourcePaneId := s.sourcePaneId,
     targetPaneId := s.targetPaneId, dropPosition := s.dropPosition },
   { s with isDragging := false, draggedTab := none, sourcePaneId := none,
            targetPaneId := none, dropPosition := none })

/-- `calculateDropPosition(mouseX, mouseY, paneId)`: edge-band
classification against the registered rectangle; an unregistered pane id
classifies as center. -/
def calculateDropPosition (s : DragServiceState) (mouseX mouseY : ℚ)
    (pid : String) : DockPos :=
  match lookupRect s pid with
  | none => .center
  | some rect =>
    let relX := (mouseX - rect.x) / rect.width
    let relY := (mouseY - rect.y) / rect.height
    if relX < edgeThreshold then .left
    else if relX > 1 - edgeThreshold then .right
    else if relY < edgeThreshold then .top
    else if relY > 1 - edgeThreshold then .bottom
    else .center

/-- `handleDragOver(event, paneId)`: when a drag is in progress, commits
the computed position into the authoritative drag state in the same call
and returns it. -/
def handleDragOver (s : DragServiceState) (clientX clientY : ℚ) (pid : String) :
    Option DockPos × DragServiceState :=
  if s.isDragging = false then (none, s)
  else
    let position := calculateDropPosition s clientX clientY pid
    (some position,
     { s with targetPaneId := some pid, dropPosition := some position })

/-! ### The mousemove-driven hover-confirmation machine

Embedding of the drag-docking logic of the workspace pane component
variant that listens to mousemove: component refs `dropPosition`,
`pendingPosition` and `hoverTimeout`, the `HOVER_DELAY = 400` timer, and
the shared docking-service drag state.  Timers are modelled explicitly:
`timers` is the list of scheduled timeout callbacks (handle, absolute
deadline, captured position); `setTimeout` appends a fresh handle,
`clearTimeout` removes the stored handle.  `pendingSince` is a ghost
field recording the instant `pendingPosition` last changed; it shadows no
source variable and is read by no transition. -/

/-- A scheduled hover timer: its handle, absolute deadline, and the
`newPosition` captured by the callback closure. -/
structure HoverTimer where
  handle : Nat
  deadline : Nat
  pos : DockPos
  deriving DecidableEq

/-- `EDGE = 0.18` of the mousemove handler. -/
def hoverEdge : ℚ := 18 / 100

/-- `HOVER_DELAY = 400`. -/
def hoverDelay : Nat := 400

/-- The pane component state during a drag, together with the mirrored
docking-service drag state and the timer queue. -/
structure HoverState where
  now : Nat
  dropPosition : Option DockPos
  pendingPosition : Option DockPos
  hoverTimeout : Option Nat
  timers : List HoverTimer
  nextHandle : Nat
  pendingSince : Nat
  ds : DragServiceState
  deriving DecidableEq

/-- `clearHoverTimeout()`: cancel the stored handle, if any. -/
def clearHoverTimeoutFn (s : HoverState) : HoverState :=
  match s.hoverTimeout with
  | some h =>
    { s with timers := s.timers.filter (fun tm => tm.handle != h),
             hoverTimeout := none }
  | none => s

/-- `handlePaneMouseMove(event)` for the pane `paneId`: classify the
pointer into right / bottom / center with the 0.18 edge bands, suppress
center over the source pane, and on a classification change cancel the
outstanding timer and (for an edge) schedule a new one that will commit
the position after the hover delay. -/
def handlePaneMouseMove (paneId : String) (x y : ℚ) (rect? : Option PaneRect)
    (s : HoverState) : HoverState :=
  if s.ds.isDragging = false then
    clearHoverTimeoutFn { s with dropPosition := none, pendingPosition := none }
  else
    match rect? with
    | none => s
    | some rect =>
      let relX := (x - rect.x) / rect.width
      let relY := (y - rect.y) / rect.height
      let newPosition : DockPos :=
        if relX > 1 - hoverEdge then .right
        else if relY > 1 - hoverEdge then .bottom
        else .center
      if s.ds.sourcePaneId = some paneId ∧ newPosition = .center then
        clearHoverTimeoutFn { s with dropPosition := none, pendingPosition := none }
      else if some newPosition ≠ s.pendingPosition then
        let s1 := clearHoverTimeoutFn
          { s with pendingPosition := some newPosition, pendingSince := s.now }
        if newPosition ≠ .center then
          { s1 with
              timers := s1.timers ++
                [{ handle := s1.nextHandle, deadline := s1.now + hoverDelay,
                   pos := newPosition }],
              hoverTimeout := some s1.nextHandle,
              nextHandle := s1.nextHandle + 1 }
        else
          { s1 with dropPosition := none,
                    ds := { s1.ds with targetPaneId := none, dropPosition := none } }
      else s

/-- The body of the scheduled `setTimeout` callback: commit the captured
position into the component ref and the authoritative drag state.  The
stored handle is left stale, exactly as in the source. -/
def fireTimer (paneId : String) (tm : HoverTimer) (s : HoverState) : HoverState :=
  { s with now := tm.deadline,
           timers := s.timers.filter (fun x => x.handle != tm.handle),
           dropPosition := some tm.pos,
           ds := { s.ds with targetPaneId := some paneId,
                             dropPosition := some tm.pos } }

/-- `handlePaneMouseLeave()`. -/
def handlePaneMouseLeave (paneId : String) (s : HoverState) : HoverState :=
  let s1 := clearHoverTimeoutFn
    { s with dropPosition := none, pendingPosition := none, pendingSince := s.now }
  if s1.ds.targetPaneId = some paneId then
    { s1 with ds := { s1.ds with targetPaneId := none, dropPosition := none } }
  else s1

/-- One event-loop step of the pane component during a drag: a mousemove
at time `t`, a due timer firing, or a mouseleave.  Events are delivered
in time order and a live timer fires no later than its deadline. -/
inductive HStep (paneId : String) : HoverState → HoverState → Prop where
  | move (t : Nat) (x y : ℚ) (rect? : Option PaneRect) (s : HoverState)
      (ht : s.now ≤ t) (hd : ∀ tm ∈ s.timers, t ≤ tm.deadline) :
      HStep paneId s (handlePaneMouseMove paneId x y rect? { s with now := t })
  | fire (tm : HoverTimer) (s : HoverState)
      (hmem : tm ∈ s.timers) (hnow : s.now ≤ tm.deadline) :
      HStep paneId s (fireTimer paneId tm s)
  | leave (t : Nat) (s : HoverState)
      (ht : s.now ≤ t) (hd : ∀ tm ∈ s.timers, t ≤ tm.deadline) :
      HStep paneId s (handlePaneMouseLeave paneId { s with now := t })

/-- The component state freshly after `startDrag(tab, src)`: no timer, no
pending classification, cleared target and drop position. -/
def hoverStart (t0 : Nat) (tab : Tab) (src : String)
    (rects : List (String × PaneRect)) : HoverState :=
  { now := t0, dropPosition := none, pendingPosition := none,
    hoverTimeout := none, timers := [], nextHandle := 0, pendingSince := t0,
    ds := { isDragging := true, draggedTab := some tab,
            sourcePaneId := some src, targetPaneId := none,
            dropPosition := none, paneRects := rects } }

/-- States of the pane component reachable during a single drag. -/
inductive HReach (paneId : String) : HoverState → Prop where
  | start (t0 : Nat) (tab : Tab) (src : String)
      (rects : List (String × PaneRect)) :
      HReach paneId (hoverStart t0 tab src rects)
  | step {s s' : HoverState} : HReach paneId s → HStep paneId s s' →
      HReach paneId s'

/-! ### Workspace invariants -/

/-- The tab ids of one pane, in order. -/
def paneIds (p : Pane) : List String := p.tabs.map Tab.id

/-- All tab ids across the pane list, in pane order. -/
def flatIds (ps : List Pane) : List String :=
  ps.foldr (fun p acc => paneIds p ++ acc) []

/-- All tab ids of the workspace. -/
def allTabIds (w : Workspace) : List String := flatIds w.panes

/-- Tab-ownership invariant: every tab id appears in the tabs sequence of
exactly one pane, and only once there. -/
def TabUniq (w : Workspace) : Prop := (allTabIds w).Nodup

/-- A pane's active id is null or the id of one of its tabs. -/
def paneActiveOk (p : Pane) : Prop :=
  match p.activeTabId with
  | none => True
  | some a => a ∈ paneIds p

/-- The active-tab invariant over the whole workspace. -/
def ActiveOk (w : Workspace) : Prop := ∀ p ∈ w.panes, paneActiveOk p

/-- No tab carries the empty (JavaScript-falsy) id. -/
def NoEmptyIds (w : Workspace) : Prop :=
  ∀ p ∈ w.panes, ∀ t ∈ p.tabs, t.id ≠ ""

/-! ### Basic lemmas about the list helpers -/

theorem flatIds_nil : flatIds [] = [] := rfl

theorem flatIds_cons (p : Pane) (ps : List Pane) :
    flatIds (p :: ps) = paneIds p ++ flatIds ps := rfl

theorem flatIds_append (a b : List Pane) :
    flatIds (a ++ b) = flatIds a ++ flatIds b := by
  induction a with
  | nil => rfl
  | cons p rest ih => simp [flatIds_cons, ih, List.append_assoc]

theorem jsInsertIdx_perm (i : Nat) (x : α) (l : List α) :
    (jsInsertIdx i x l).Perm (x :: l) := by
  unfold jsInsertIdx
  calc (l.take i ++ x :: l.drop i).Perm (x :: (l.take i ++ l.drop i)) :=
        List.perm_middle
    _ = x :: l := by rw [List.take_append_drop]

theorem findPaneList_some (ps : List Pane) (pid : String) (p : Pane)
    (h : findPaneList ps pid = some p) :
    p.id = pid ∧ ∃ l₁ l₂, ps = l₁ ++ p :: l₂ ∧ (∀ q ∈ l₁, q.id ≠ pid) ∧
      ∀ f, updatePaneList ps pid f = l₁ ++ f p :: l₂ := by
  induction ps with
  | nil => simp [findPaneList] at h
  | cons q rest ih =>
    by_cases hq : q.id = pid
    · simp only [findPaneList, if_pos hq] at h
      cases h
      refine ⟨hq, [], rest, rfl, by simp, fun f => ?_⟩
      simp [updatePaneList, if_pos hq]
    · simp only [findPaneList, if_neg hq] at h
      obtain ⟨hid, l₁, l₂, hsplit, hfree, hupd⟩ := ih h
      refine ⟨hid, q :: l₁, l₂, by simp [hsplit], ?_, fun f => ?_⟩
      · intro r hr
        rcases List.mem_cons.mp hr with hr | hr
        · exact hr ▸ hq
        · exact hfree r hr
      · simp [updatePaneList, if_neg hq, hupd f]

theorem findPaneList_none (ps : List Pane) (pid : String)
    (h : findPaneList ps pid = none) :
    (∀ q ∈ ps, q.id ≠ pid) ∧ ∀ f, updatePaneList ps pid f = ps := by
  induction ps with
  | nil => exact ⟨by simp, fun f => rfl⟩
  | cons q rest ih =>
    by_cases hq : q.id = pid
    · simp [findPaneList, if_pos hq] at h
    · simp only [findPaneList, if_neg hq] at h
      obtain ⟨hfree, hupd⟩ := ih h
      refine ⟨?_, fun f => ?_⟩
      · intro r hr
        rcases List.mem_cons.mp hr with hr | hr
        · exact hr ▸ hq
        · exact hfree r hr
      · simp [updatePaneList, if_neg hq, hupd f]

theorem findTabIdx_some (ts : List Tab) (tid : String) (i : Nat)
    (h : findTabIdx ts tid = some i) :
    ∃ u₁ x u₂, ts = u₁ ++ x :: u₂ ∧ u₁.length = i ∧ x.id = tid ∧
      (∀ y ∈ u₁, y.id ≠ tid) ∧ ts.eraseIdx i = u₁ ++ u₂ ∧ ts[i]? = some x := by
  induction ts generalizing i with
  | nil => simp [findTabIdx] at h
  | cons t rest ih =>
    by_cases ht : t.id = tid
    · simp only [findTabIdx, if_pos ht, Option.some.injEq] at h
      subst h
      exact ⟨[], t, rest, rfl, rfl, ht, by simp, rfl, by simp⟩
    · simp only [findTabIdx, if_neg ht] at h
      cases hrec : findTabIdx rest tid with
      | none => rw [hrec] at h; simp at h
      | some j =>
        rw [hrec] at h
        simp only [Option.map_some', Option.some.injEq] at h
        obtain ⟨u₁, x, u₂, hsplit, hlen, hx, hfree, herase, hget⟩ := ih j hrec
        refine ⟨t :: u₁, x, u₂, by simp [hsplit], by simp [hlen, h], hx, ?_, ?_, ?_⟩
        · intro y hy
          rcases List.mem_cons.mp hy with hy | hy
          · exact hy ▸ ht
          · exact hfree y hy
        · rw [← h]
          simpa [List.eraseIdx] using congrArg (t :: ·) herase
        · rw [← h]
          simpa using hget

theorem findTabIdx_none (ts : List Tab) (tid : String)
    (h : findTabIdx ts tid = none) : ∀ y ∈ ts, y.id ≠ tid := by
  induction ts with
  | nil => simp
  | cons t rest ih =>
    by_cases ht : t.id = tid
    · simp [findTabIdx, if_pos ht] at h
    · simp only [findTabIdx, if_neg ht, Option.map_eq_none'] at h
      intro y hy
      rcases List.mem_cons.mp hy with hy | hy
      · exact hy ▸ ht
      · exact ih h y hy

theorem hasTabId_iff (ts : List Tab) (tid : String) :
    hasTabId ts tid = true ↔ tid ∈ ts.map Tab.id := by
  induction ts with
  | nil => simp [hasTabId]
  | cons t rest ih =>
    by_cases ht : t.id = tid
    · simp [hasTabId, if_pos ht, ht]
    · simp only [hasTabId, if_neg ht, ih, List.map_cons, List.mem_cons]
      constructor
      · exact Or.inr
      · rintro (hh | hh)
        · exact absurd hh.symm ht
        · exact hh

theorem findPaneIdx_some (ps : List Pane) (pid : String) (i : Nat)
    (h : findPaneIdx ps pid = some i) :
    ∃ l₁ p l₂, ps = l₁ ++ p :: l₂ ∧ l₁.length = i ∧ p.id = pid ∧
      (∀ q ∈ l₁, q.id ≠ pid) ∧ ps.eraseIdx i = l₁ ++ l₂ := by
  induction ps generalizing i with
  | nil => simp [findPaneIdx] at h
  | cons q rest ih =>
    by_cases hq : q.id = pid
    · simp only [findPaneIdx, if_pos hq, Option.some.injEq] at h
      subst h
      exact ⟨[], q, rest, rfl, rfl, hq, by simp, rfl⟩
    · simp only [findPaneIdx, if_neg hq] at h
      cases hrec : findPaneIdx rest pid with
      | none => rw [hrec] at h; simp at h
      | some j =>
        rw [hrec] at h
        simp only [Option.map_some', Option.some.injEq] at h
        obtain ⟨l₁, p, l₂, hsplit, hlen, hid, hfree, herase⟩ := ih j hrec
        refine ⟨q :: l₁, p, l₂, by simp [hsplit], by simp [hlen, h], hid, ?_, ?_⟩
        · intro r hr
          rcases List.mem_cons.mp hr with hr | hr
          · exact hr ▸ hq
          · exact hfree r hr
        · rw [← h]
          simpa [List.eraseIdx] using congrArg (q :: ·) herase

theorem findPaneIdx_none_iff (ps : List Pane) (pid : String) :
    findPaneIdx ps pid = none ↔ findPaneList ps pid = none := by
  induction ps with
  | nil => simp [findPaneIdx, findPaneList]
  | cons q rest ih =>
    by_cases hq : q.id = pid
    · simp [findPaneIdx, findPaneList, if_pos hq]
    · simp [findPaneIdx, findPaneList, if_neg hq, ih]

theorem updatePaneList_id_map (ps : List Pane) (pid : String) (f : Pane → Pane)
    (hf : ∀ p, (f p).id = p.id) :
    (updatePaneList ps pid f).map Pane.id = ps.map Pane.id := by
  induction ps with
  | nil => rfl
  | cons q rest ih =>
    by_cases hq : q.id = pid
    · simp [updatePaneList, if_pos hq, hf q]
    · simp [updatePaneList, if_neg hq, ih]

theorem updatePaneList_length (ps : List Pane) (pid : String) (f : Pane → Pane) :
    (updatePaneList ps pid f).length = ps.length := by
  induction ps with
  | nil => rfl
  | cons q rest ih =>
    by_cases hq : q.id = pid
    · simp [updatePaneList, if_pos hq]
    · simp [updatePaneList, if_neg hq, ih]

theorem findPaneList_updatePaneList_self (ps : List Pane) (pid : String)
    (f : Pane → Pane) (hf : ∀ p, (f p).id = p.id) :
    findPaneList (updatePaneList ps pid f) pid = (findPaneList ps pid).map f := by
  induction ps with
  | nil => rfl
  | cons q rest ih =>
    by_cases hq : q.id = pid
    · simp [updatePaneList, findPaneList, if_pos hq, hf q]
    · have : (q.id = pid) = False := by simp [hq]
      simp [updatePaneList, findPaneList, if_neg hq, ih, hf q, hq]

theorem findPaneList_updatePaneList_ne (ps : List Pane) (pid pid2 : String)
    (f : Pane → Pane) (hne : pid ≠ pid2) (hf : ∀ p, (f p).id = p.id) :
    findPaneList (updatePaneList ps pid f) pid2 = findPaneList ps pid2 := by
  induction ps with
  | nil => rfl
  | cons q rest ih =>
    by_cases hq : q.id = pid
    · have hq2 : ¬ (f q).id = pid2 := by rw [hf q, hq]; exact hne
      have hq2q : ¬ q.id = pid2 := by rw [hq]; exact hne
      simp [updatePaneList, findPaneList, if_pos hq, if_neg hq2, if_neg hq2q]
    · by_cases hq2 : q.id = pid2
      · simp [updatePaneList, findPaneList, if_neg hq, if_pos hq2]
      · simp [updatePaneList, findPaneList, if_neg hq, if_neg hq2, ih]

theorem updatePaneList_comp (ps : List Pane) (pid : String) (f g : Pane → Pane)
    (hf : ∀ p, (f p).id = p.id) :
    updatePaneList (updatePaneList ps pid f) pid g =
      updatePaneList ps pid (fun p => g (f p)) := by
  induction ps with
  | nil => rfl
  | cons q rest ih =>
    by_cases hq : q.id = pid
    · have : (f q).id = pid := by rw [hf q]; exact hq
      simp [updatePaneList, if_pos hq, if_pos this]
    · simp [updatePaneList, if_neg hq, ih]

theorem updatePaneList_comm (ps : List Pane) (pidA pidB : String)
    (f g : Pane → Pane) (hne : pidA ≠ pidB)
    (hf : ∀ p, (f p).id = p.id) (hg : ∀ p, (g p).id = p.id) :
    updatePaneList (updatePaneList ps pidA f) pidB g =
      updatePaneList (updatePaneList ps pidB g) pidA f := by
  induction ps with
  | nil => rfl
  | cons q rest ih =>
    by_cases hqA : q.id = pidA
    · have hqB : ¬ q.id = pidB := by rw [hqA]; exact hne
      have hfB : ¬ (f q).id = pidB := by rw [hf q]; exact hqB
      simp [updatePaneList, if_pos hqA, if_neg hqB, if_neg hfB]
    · by_cases hqB : q.id = pidB
      · have hgA : ¬ (g q).id = pidA := by rw [hg q]; exact hqA
        simp [updatePaneList, if_pos hqB, if_neg hqA, if_neg hgA]
      · simp [updatePaneList, if_neg hqA, if_neg hqB, ih]

theorem updatePaneList_map_of_first (ps : List Pane) (pid : String)
    (f : Pane → Pane) (p : Pane) (F : Pane → β)
    (hfind : findPaneList ps pid = some p) (hF : F (f p) = F p) :
    (updatePaneList ps pid f).map F = ps.map F := by
  obtain ⟨_, l₁, l₂, hsplit, _, hupd⟩ := findPaneList_some ps pid p hfind
  rw [hupd f, hsplit]
  simp [hF]

instance instDecPaneActiveOk (p : Pane) : Decidable (paneActiveOk p) :=
  match h : p.activeTabId with
  | none => .isTrue (by unfold paneActiveOk; rw [h]; trivial)
  | some a =>
    if hm : a ∈ paneIds p then .isTrue (by unfold paneActiveOk; rw [h]; exact hm)
    else .isFalse (by unfold paneActiveOk; rw [h]; exact hm)

instance instDecTabUniq (w : Workspace) : Decidable (TabUniq w) :=
  inferInstanceAs (Decidable (allTabIds w).Nodup)

instance instDecActiveOk (w : Workspace) : Decidable (ActiveOk w) :=
  inferInstanceAs (Decidable (∀ p ∈ w.panes, paneActiveOk p))

/-! ### Concrete fixtures shared by witnesses and counterexamples -/

/-- A data-grid tab on schema public, table users, connection c1. -/
def sampleTab : Tab :=
  { id := "t1", type := .dataGrid, title := "users", connectionId := "c1",
    schema := some "public", table := some "users" }

/-- A 100 by 100 pane rectangle at the origin. -/
def sampleRect : PaneRect := { x := 0, y := 0, width := 100, height := 100 }

/-- The initial workspace after opening `sampleTab` into the main pane. -/
def sampleW1 : Workspace :=
  (openTab initialWorkspace "t1" "c1" .dataGrid "users"
    { schema := some "public", table := some "users" }).2

/-- `sampleW1` after splitting right and relocating the tab into the new
pane p2: main is empty, p2 holds t1 and is active. -/
def sampleW2 : Workspace := splitPane sampleW1 "p2" "main" .right (some sampleTab)

/-- A docking-service state mid-drag out of pane a, with pane b
registered at `sampleRect`. -/
def sampleDS : DragServiceState :=
  { isDragging := true, draggedTab := some sampleTab, sourcePaneId := some "a",
    targetPaneId := none, dropPosition := none, paneRects := [("b", sampleRect)] }

/-- A workspace already holding the maximum number of panes. -/
def fourPaneW : Workspace :=
  { panes := [{ id := "a", tabs := [sampleTab], activeTabId := some "t1" },
              { id := "b", tabs := [], activeTabId := none },
              { id := "c", tabs := [], activeTabId := none },
              { id := "d", tabs := [], activeTabId := none }],
    activePaneId := "a", splitDirection := some .vertical }

/-! ### C9: capacity rejection -/

/-- C9: with `panes.length == 4`, any `splitPane` call returns the
workspace unchanged in every component, because the capacity guard runs
before any mutation. -/
theorem splitPane_at_capacity (w : Workspace) (fid tgt : String)
    (pos : DockEdge) (tab : Option Tab) (h : w.panes.length = 4) :
    splitPane w fid tgt pos tab = w := by
  unfold splitPane
  rw [if_pos (by omega)]

/-- Witness for C9 at a concrete four-pane workspace. -/
theorem splitPane_at_capacity_witness :
    fourPaneW.panes.length = 4 ∧
      splitPane fourPaneW "p9" "a" DockEdge.right (some sampleTab) = fourPaneW :=
  ⟨rfl, splitPane_at_capacity fourPaneW "p9" "a" DockEdge.right (some sampleTab) rfl⟩

/-! ### C10: drop-position classification -/

/-- The classification stated by the claim, written from its words: left
when the relative abscissa is below 0.2, right above 0.8, then top and
bottom on the relative ordinate, otherwise center. -/
def claimDropClassification (relX relY : ℚ) : DockPos :=
  if relX < 2/10 then .left
  else if relX > 8/10 then .right
  else if relY < 2/10 then .top
  else if relY > 8/10 then .bottom
  else .center

/-- C10: on a registered pane `calculateDropPosition` agrees with the
claim's band classification (so horizontal bands win at corners: the
left-band condition is decided first), and an unregistered pane id always
classifies as center. -/
theorem calculateDropPosition_spec (s : DragServiceState) (mouseX mouseY : ℚ)
    (pid : String) :
    (∀ r : PaneRect, lookupRect s pid = some r → 0 < r.width → 0 < r.height →
      calculateDropPosition s mouseX mouseY pid =
        claimDropClassification ((mouseX - r.x) / r.width) ((mouseY - r.y) / r.height)
      ∧ ((mouseX - r.x) / r.width < 2/10 →
          calculateDropPosition s mouseX mouseY pid = DockPos.left))
    ∧ (lookupRect s pid = none →
        calculateDropPosition s mouseX mouseY pid = DockPos.center) := by
  have e1 : edgeThreshold = 2/10 := by norm_num [edgeThreshold]
  have e2 : (1 : ℚ) - 2/10 = 8/10 := by norm_num
  constructor
  · intro r hr _ _
    constructor
    · simp only [calculateDropPosition, claimDropClassification, hr, e1, e2]
    · intro hx
      rw [← e1] at hx
      simp only [calculateDropPosition, hr, if_pos hx]
  · intro h
    simp only [calculateDropPosition, h]

/-- Witness for C10 at the concrete registered rectangle and at an
unregistered id. -/
theorem calculateDropPosition_spec_witness :
    (lookupRect sampleDS "b" = some sampleRect ∧ (0:ℚ) < sampleRect.width ∧
      (0:ℚ) < sampleRect.height ∧
      calculateDropPosition sampleDS 10 10 "b" =
        claimDropClassification ((10 - sampleRect.x) / sampleRect.width)
          ((10 - sampleRect.y) / sampleRect.height))
    ∧ (lookupRect sampleDS "zz" = none ∧
        calculateDropPosition sampleDS 50 50 "zz" = DockPos.center) :=
  ⟨⟨by norm_num [lookupRect, sampleDS], by norm_num [sampleRect],
    by norm_num [sampleRect],
    ((calculateDropPosition_spec sampleDS 10 10 "b").1 sampleRect
      (by norm_num [lookupRect, sampleDS]) (by norm_num [sampleRect])
      (by norm_num [sampleRect])).1⟩,
   ⟨by decide,
    (calculateDropPosition_spec sampleDS 50 50 "zz").2 (by decide)⟩⟩

/-! ### Counterexamples: C1, C2, C3, C4, C5 -/

/-- C1 counterexample: from the initial workspace, open a tab, split it
into a new pane, then call `addTabToPane` on the other pane with the same
tab.  The duplicate guard only inspects the target pane, so the tab id
t1 ends up in the tabs sequence of two panes at once. -/
theorem addTabToPane_duplicates_counterexample :
    TabUniq sampleW2 ∧ ¬ TabUniq (addTabToPane sampleW2 "main" sampleTab 0) ∧
      allTabIds (addTabToPane sampleW2 "main" sampleTab 0) = ["t1", "t1"] := by
  refine ⟨by decide, ?_, by decide⟩
  intro h
  rw [TabUniq, show allTabIds (addTabToPane sampleW2 "main" sampleTab 0) =
    ["t1", "t1"] from by decide] at h
  simp at h

/-- C2 counterexample: `splitPane` with an unknown target pane id still
pushes the new pane (the findIndex miss falls through to a push), and
`setActiveTab` with a tab id absent from the pane overwrites
`activeTabId` anyway. -/
theorem stale_reference_counterexample :
    findPane initialWorkspace "nosuch" = none ∧
    splitPane initialWorkspace "p9" "nosuch" DockEdge.right none ≠ initialWorkspace ∧
    (splitPane initialWorkspace "p9" "nosuch" DockEdge.right none).panes.map Pane.id =
      ["main", "p9"] ∧
    (findPane sampleW1 "main").map (fun p => hasTabId p.tabs "ghost") = some false ∧
    setActiveTab sampleW1 "main" "ghost" ≠ sampleW1 := by
  refine ⟨by decide, by decide, by decide, by decide, by decide⟩

/-- C3 counterexample: `moveTab` that empties its source pane leaves the
empty pane in place even though another pane exists; no auto-removal
happens on the move path. -/
theorem moveTab_leaves_empty_pane_counterexample :
    (moveTab sampleW2 "p2" "main" "t1" 0).panes.map (fun p => (p.id, p.tabs.length)) =
      [("main", 1), ("p2", 0)] ∧
    (moveTab sampleW2 "p2" "main" "t1" 0).panes.length = 2 := by
  exact ⟨by decide, by decide⟩

/-- C4 counterexample: `setActiveTab` writes an arbitrary tab id without
checking membership, leaving `activeTabId` referring to no tab of the
pane. -/
theorem setActiveTab_dangling_counterexample :
    ActiveOk sampleW1 ∧ ¬ ActiveOk (setActiveTab sampleW1 "main" "ghost") := by
  constructor
  · decide
  · decide

/-- C5 counterexample: `handleDragOver` — the dragover-path pointer-move
handler — writes the computed position straight into the authoritative
`dropPosition` in the same call, with no timer and no delay. -/
theorem handleDragOver_immediate_commit_counterexample :
    sampleDS.isDragging = true ∧ sampleDS.dropPosition = none ∧
    (handleDragOver sampleDS 50 5 "b").2.dropPosition = some DockPos.top ∧
    (handleDragOver sampleDS 50 5 "b").2.targetPaneId = some "b" := by
  refine ⟨rfl, rfl, ?_, ?_⟩ <;>
    norm_num [handleDragOver, sampleDS, calculateDropPosition, lookupRect,
      sampleRect, edgeThreshold]

/-! ### C2: stale-reference no-ops -/

theorem updateTabInPanes_not_found (ps : List Pane) (tid : String) (f : Tab → Tab)
    (h : ∀ p ∈ ps, hasTabId p.tabs tid = false) :
    updateTabInPanes ps tid f = ps := by
  induction ps with
  | nil => rfl
  | cons p rest ih =>
    have hp := h p (by simp)
    simp [updateTabInPanes, hp, ih (fun q hq => h q (by simp [hq]))]

/-- C2 amended: the operations that guard their lookups are silent no-ops
on stale identifiers — an unknown pane id makes closeTab, closeOtherTabs,
closeSavedTabs, closeTabsToRight, setTabs, addTabToPane,
removeTabFromPane, setActiveTab, moveTab (either side) and closePane
leave the workspace untouched, and a tab id absent from the addressed
pane makes closeTab, closeTabsToRight, removeTabFromPane, moveTab and the
per-tab update operations leave it untouched.  (splitPane with an unknown
target and setActiveTab with an unknown tab id are the exceptions — see
the counterexample.) -/
theorem stale_reference_noops (w : Workspace) (pid pid2 tid q ti : String)
    (b : Bool) (i : Nat) (tabs : List Tab) (tab : Tab)
    (m : List (String × String)) :
    (findPane w pid = none →
      closeTab w pid tid = w ∧ closeOtherTabs w pid tid = w ∧
      closeSavedTabs w pid = w ∧ closeTabsToRight w pid tid = w ∧
      setTabs w pid tabs = w ∧ addTabToPane w pid tab i = w ∧
      removeTabFromPane w pid tid = w ∧ setActiveTab w pid tid = w ∧
      moveTab w pid pid2 tid i = w ∧ moveTab w pid2 pid tid i = w ∧
      closePane w pid = w)
    ∧ (∀ pane, findPane w pid = some pane → findTabIdx pane.tabs tid = none →
      closeTab w pid tid = w ∧ closeTabsToRight w pid tid = w ∧
      removeTabFromPane w pid tid = w ∧ moveTab w pid pid2 tid i = w)
    ∧ ((∀ p ∈ w.panes, hasTabId p.tabs tid = false) →
      updateTabQuery w tid q = w ∧ setTabDirty w tid b = w ∧
      updateTabMetadata w tid m = w ∧ updateTabTitle w tid ti = w) := by
  refine ⟨fun h => ?_, fun pane hp hi => ?_, fun h => ?_⟩
  · have hidx : findPaneIdx w.panes pid = none := (findPaneIdx_none_iff _ _).mpr h
    refine ⟨by simp [closeTab, h], by simp [closeOtherTabs, h],
      by simp [closeSavedTabs, h], by simp [closeTabsToRight, h],
      by simp [setTabs, h], by simp [addTabToPane, h],
      by simp [removeTabFromPane, h], by simp [setActiveTab, h],
      by simp [moveTab, h], ?_, ?_⟩
    · cases hf : findPane w pid2 <;> simp [moveTab, hf, h]
    · by_cases hl : w.panes.length ≤ 1 <;> simp [closePane, hl, hidx]
  · refine ⟨by simp [closeTab, hp, hi], by simp [closeTabsToRight, hp, hi],
      by simp [removeTabFromPane, hp, hi], ?_⟩
    cases hf : findPane w pid2 <;> simp [moveTab, hf, hp, hi]
  · have hupd := fun f => updateTabInPanes_not_found w.panes tid f h
    exact ⟨by simp [updateTabQuery, hupd], by simp [setTabDirty, hupd],
      by simp [updateTabMetadata, hupd], by simp [updateTabTitle, hupd]⟩

/-- Witness for C2 amended at concrete stale identifiers. -/
theorem stale_reference_noops_witness :
    closeTab initialWorkspace "nope" "t" = initialWorkspace ∧
    moveTab sampleW1 "main" "p2" "t1" 0 = sampleW1 ∧
    updateTabTitle sampleW1 "ghost" "x" = sampleW1 := by
  refine ⟨((stale_reference_noops initialWorkspace "nope" "p2" "t" "q" "x" true 0
      [] sampleTab []).1 (by decide)).1, ?_, ?_⟩
  · exact (((stale_reference_noops sampleW1 "p2" "p2" "t1" "q" "x" true 0 []
      sampleTab []).1 (by decide)).2.2.2.2.2.2.2.2.2).1
  · exact (((stale_reference_noops sampleW1 "main" "p2" "ghost" "q" "x" true 0 []
      sampleTab []).2.2) (by decide)).2.2.2

/-! ### C3: automatic removal of emptied panes -/

theorem removeFirstById_head (t : Tab) (rest : List Tab) :
    removeFirstById (t :: rest) t.id = rest := by
  simp [removeFirstById, findTabIdx, List.eraseIdx]

theorem foldl_removeFirstById_self (l : List Tab) :
    l.foldl (fun acc t => removeFirstById acc t.id) l = [] := by
  induction l with
  | nil => rfl
  | cons t rest ih =>
    rw [List.foldl_cons, removeFirstById_head]
    exact ih

theorem closePane_removes (w : Workspace) (pid : String)
    (hnodup : (w.panes.map Pane.id).Nodup) (hlen : 1 < w.panes.length)
    (p₀ : Pane) (hmem : p₀ ∈ w.panes) (hid : p₀.id = pid) :
    ∀ p ∈ (closePane w pid).panes, p.id ≠ pid := by
  unfold closePane
  rw [if_neg (by omega)]
  cases hidx : findPaneIdx w.panes pid with
  | none =>
    exfalso
    have hnone := (findPaneIdx_none_iff _ _).mp hidx
    exact (findPaneList_none _ _ hnone).1 p₀ hmem hid
  | some i =>
    obtain ⟨l₁, p, l₂, hsplit, _, hpid, hfree, herase⟩ := findPaneIdx_some _ _ _ hidx
    intro q hq
    simp only at hq
    rw [herase] at hq
    rw [hsplit] at hnodup
    simp only [List.map_append, List.map_cons, List.nodup_append,
      List.nodup_cons] at hnodup
    rcases List.mem_append.mp hq with hq | hq
    · exact hfree q hq
    · intro hqid
      apply hnodup.2.1.1
      have hmem2 : q.id ∈ List.map Pane.id l₂ := List.mem_map_of_mem Pane.id hq
      rwa [hqid, ← hpid] at hmem2

/-- C3 amended: closeTab, closeSavedTabs and removeTabFromPane do
auto-remove a pane they leave empty when another pane exists; moveTab and
splitPane do not (see the counterexample). -/
theorem empty_pane_autoclose (w : Workspace) (pid tid : String)
    (hnodup : (w.panes.map Pane.id).Nodup) :
    (∀ pane i, findPane w pid = some pane → findTabIdx pane.tabs tid = some i →
      pane.tabs.length = 1 → 1 < w.panes.length →
      ∀ p ∈ (closeTab w pid tid).panes, p.id ≠ pid)
    ∧ (∀ pane, findPane w pid = some pane → (∀ t ∈ pane.tabs, t.isDirty = false) →
      1 < w.panes.length →
      ∀ p ∈ (closeSavedTabs w pid).panes, p.id ≠ pid)
    ∧ (∀ pane i, findPane w pid = some pane → findTabIdx pane.tabs tid = some i →
      pane.tabs.length = 1 → 1 < w.panes.length →
      ∀ p ∈ (removeTabFromPane w pid tid).panes, p.id ≠ pid) := by
  have hupdlen : ∀ f, (updatePaneList w.panes pid f).length = w.panes.length :=
    fun f => updatePaneList_length w.panes pid f
  have hmapNodup : ∀ g : Pane → Pane, (∀ p, (g p).id = p.id) →
      ((updatePaneList w.panes pid g).map Pane.id).Nodup := by
    intro g hg
    rw [updatePaneList_id_map _ _ _ hg]
    exact hnodup
  refine ⟨fun pane i hp hi hone hlen => ?_, fun pane hp hsaved hlen => ?_,
    fun pane i hp hi hone hlen => ?_⟩
  · have herase : (pane.tabs.eraseIdx i).length = 0 := by
      obtain ⟨u₁, x, u₂, hsplit, hlenu, _, _, her, _⟩ := findTabIdx_some _ _ _ hi
      rw [her, List.length_append]
      have hh : u₁.length + (x :: u₂).length = 1 := by
        rw [← List.length_append, ← hsplit]; exact hone
      simp only [List.length_cons] at hh
      omega
    have hmemUpd : ∀ g : Pane → Pane, g pane ∈ updatePaneList w.panes pid g := by
      intro g
      obtain ⟨hpid, l₁, l₂, hsplit, hfree, hupd⟩ := findPaneList_some _ _ _ hp
      rw [hupd]
      exact List.mem_append_right _ (List.mem_cons_self _ _)
    simp only [closeTab, hp, hi, herase, hupdlen, hlen, and_self, if_true,
      and_true, eq_self_iff_true, if_pos]
    exact closePane_removes _ pid (hmapNodup _ (fun p => rfl))
      (lt_of_lt_of_eq hlen (hupdlen _).symm) _ (hmemUpd _)
      (findPaneList_some _ _ _ hp).1
  · have hfilter : pane.tabs.filter (fun t => !t.isDirty) = pane.tabs :=
      List.filter_eq_self.mpr (fun t ht => by simp [hsaved t ht])
    have hmemUpd : ∀ g : Pane → Pane, g pane ∈ updatePaneList w.panes pid g := by
      intro g
      obtain ⟨hpid, l₁, l₂, hsplit, hfree, hupd⟩ := findPaneList_some _ _ _ hp
      rw [hupd]
      exact List.mem_append_right _ (List.mem_cons_self _ _)
    simp only [closeSavedTabs, hp, hfilter, foldl_removeFirstById_self,
      List.length_nil, hupdlen, hlen, and_self, if_true, and_true,
      eq_self_iff_true, if_pos]
    exact closePane_removes _ pid (hmapNodup _ (fun p => rfl))
      (lt_of_lt_of_eq hlen (hupdlen _).symm) _ (hmemUpd _)
      (findPaneList_some _ _ _ hp).1
  · have herase : (pane.tabs.eraseIdx i).length = 0 := by
      obtain ⟨u₁, x, u₂, hsplit, hlenu, _, _, her, _⟩ := findTabIdx_some _ _ _ hi
      rw [her, List.length_append]
      have hh : u₁.length + (x :: u₂).length = 1 := by
        rw [← List.length_append, ← hsplit]; exact hone
      simp only [List.length_cons] at hh
      omega
    have hmemUpd : ∀ g : Pane → Pane, g pane ∈ updatePaneList w.panes pid g := by
      intro g
      obtain ⟨hpid, l₁, l₂, hsplit, hfree, hupd⟩ := findPaneList_some _ _ _ hp
      rw [hupd]
      exact List.mem_append_right _ (List.mem_cons_self _ _)
    simp only [removeTabFromPane, hp, hi, herase, hupdlen, hlen, and_self,
      if_true, and_true, eq_self_iff_true, if_pos]
    exact closePane_removes _ pid (hmapNodup _ (fun p => rfl))
      (lt_of_lt_of_eq hlen (hupdlen _).symm) _ (hmemUpd _)
      (findPaneList_some _ _ _ hp).1

/-- Witness for C3 amended: closing the sole tab of pane p2 in the
two-pane workspace removes p2. -/
theorem empty_pane_autoclose_witness :
    (sampleW2.panes.map Pane.id).Nodup ∧
    ∀ p ∈ (closeTab sampleW2 "p2" "t1").panes, p.id ≠ "p2" := by
  refine ⟨by decide, ?_⟩
  exact (empty_pane_autoclose sampleW2 "p2" "t1" (by decide)).1
    { id := "p2", tabs := [sampleTab], activeTabId := some "t1" } 0
    (by decide) (by decide) (by decide) (by decide)

/-! ### C7: idempotent open -/

theorem updatePaneList_map_all (ps : List Pane) (pid : String) (f : Pane → Pane)
    (F : Pane → β) (hF : ∀ p, F (f p) = F p) :
    (updatePaneList ps pid f).map F = ps.map F := by
  induction ps with
  | nil => rfl
  | cons q rest ih =>
    by_cases hq : q.id = pid
    · simp [updatePaneList, if_pos hq, hF q]
    · simp [updatePaneList, if_neg hq, ih]

theorem findMatchingTab_append (a b : List Tab) (conn : String) (ty : TabType)
    (sch tbl : Option String) :
    findMatchingTab (a ++ b) conn ty sch tbl =
      match findMatchingTab a conn ty sch tbl with
      | some t => some t
      | none => findMatchingTab b conn ty sch tbl := by
  induction a with
  | nil => rfl
  | cons t rest ih =>
    by_cases ht : t.connectionId = conn ∧ t.type = ty ∧ t.schema = sch ∧ t.table = tbl
    · simp [findMatchingTab, if_pos ht]
    · rw [List.cons_append]
      simp only [findMatchingTab, if_neg ht]
      exact ih

/-- The tab value constructed by `openTab` when no duplicate is found. -/
def mkOpenTab (freshId conn : String) (ty : TabType) (ti : String)
    (opts : OpenTabOptions) : Tab :=
  { id := freshId, type := ty, title := ti, connectionId := conn,
    schema := opts.schema, table := opts.table, query := opts.query,
    isDirty := false, metadata := opts.metadata }

theorem openTab_unfold_found (w : Workspace) (id1 conn ti : String) (ty : TabType)
    (opts : OpenTabOptions) (pane : Pane) (t : Tab)
    (hpane : findPane w w.activePaneId = some pane)
    (hforce : opts.forceNew = false)
    (hE : findMatchingTab pane.tabs conn ty opts.schema opts.table = some t) :
    openTab w id1 conn ty ti opts =
      (t.id, { w with panes := updatePaneList w.panes w.activePaneId (fun p => { p with activeTabId := some t.id }) }) := by
  simp only [openTab, hpane, hforce, Bool.false_eq_true, if_false, hE]

theorem openTab_unfold_new (w : Workspace) (id1 conn ti : String) (ty : TabType)
    (opts : OpenTabOptions) (pane : Pane)
    (hpane : findPane w w.activePaneId = some pane)
    (hforce : opts.forceNew = false)
    (hE : findMatchingTab pane.tabs conn ty opts.schema opts.table = none) :
    openTab w id1 conn ty ti opts =
      (id1, { w with panes := updatePaneList w.panes w.activePaneId (fun p => { p with tabs := p.tabs ++ [mkOpenTab id1 conn ty ti opts], activeTabId := some id1 }) }) := by
  simp only [openTab, hpane, hforce, Bool.false_eq_true, if_false, hE, mkOpenTab]

/-- C7: with a valid active pane and `forceNew` absent, calling `openTab`
twice with the same connection id, kind, schema and table returns the
same tab id both times and leaves every pane's tab count unchanged after
the second call. -/
theorem openTab_idempotent (w : Workspace) (pane : Pane)
    (id1 id2 conn ti1 ti2 : String) (ty : TabType) (opts : OpenTabOptions)
    (hpane : findPane w w.activePaneId = some pane)
    (hforce : opts.forceNew = false) :
    (openTab (openTab w id1 conn ty ti1 opts).2 id2 conn ty ti2 opts).1 =
      (openTab w id1 conn ty ti1 opts).1
    ∧ ((openTab (openTab w id1 conn ty ti1 opts).2 id2 conn ty ti2 opts).2.panes.map
        (fun p => p.tabs.length)) =
      ((openTab w id1 conn ty ti1 opts).2.panes.map (fun p => p.tabs.length)) := by
  cases hE : findMatchingTab pane.tabs conn ty opts.schema opts.table with
  | some t =>
    rw [openTab_unfold_found w id1 conn ti1 ty opts pane t hpane hforce hE]
    have hfind2 : findPane { w with panes := updatePaneList w.panes w.activePaneId (fun p => { p with activeTabId := some t.id }) } w.activePaneId = some { pane with activeTabId := some t.id } := by
      show findPaneList (updatePaneList w.panes w.activePaneId (fun p => { p with activeTabId := some t.id })) w.activePaneId = some { pane with activeTabId := some t.id }
      rw [findPaneList_updatePaneList_self w.panes w.activePaneId
        (fun p => { p with activeTabId := some t.id }) (fun p => rfl)]
      rw [show findPaneList w.panes w.activePaneId = some pane from hpane]
      rfl
    have hE2 : findMatchingTab ({ pane with activeTabId := some t.id } : Pane).tabs
        conn ty opts.schema opts.table = some t := hE
    rw [openTab_unfold_found _ id2 conn ti2 ty opts _ t hfind2 hforce hE2]
    refine ⟨rfl, ?_⟩
    exact updatePaneList_map_all _ _ _ _ (fun p => rfl)
  | none =>
    rw [openTab_unfold_new w id1 conn ti1 ty opts pane hpane hforce hE]
    have hfind2 : findPane { w with panes := updatePaneList w.panes w.activePaneId (fun p => { p with tabs := p.tabs ++ [mkOpenTab id1 conn ty ti1 opts], activeTabId := some id1 }) } w.activePaneId = some { pane with tabs := pane.tabs ++ [mkOpenTab id1 conn ty ti1 opts], activeTabId := some id1 } := by
      show findPaneList (updatePaneList w.panes w.activePaneId (fun p => { p with tabs := p.tabs ++ [mkOpenTab id1 conn ty ti1 opts], activeTabId := some id1 })) w.activePaneId = some { pane with tabs := pane.tabs ++ [mkOpenTab id1 conn ty ti1 opts], activeTabId := some id1 }
      rw [findPaneList_updatePaneList_self w.panes w.activePaneId
        (fun p => { p with tabs := p.tabs ++ [mkOpenTab id1 conn ty ti1 opts], activeTabId := some id1 }) (fun p => rfl)]
      rw [show findPaneList w.panes w.activePaneId = some pane from hpane]
      rfl
    have hE2 : findMatchingTab ({ pane with tabs := pane.tabs ++ [mkOpenTab id1 conn ty ti1 opts], activeTabId := some id1 } : Pane).tabs conn ty opts.schema opts.table = some (mkOpenTab id1 conn ty ti1 opts) := by
      show findMatchingTab (pane.tabs ++ [mkOpenTab id1 conn ty ti1 opts]) _ _ _ _ = _
      rw [findMatchingTab_append, hE]
      simp [findMatchingTab, mkOpenTab]
    rw [openTab_unfold_found _ id2 conn ti2 ty opts _ _ hfind2 hforce hE2]
    refine ⟨rfl, ?_⟩
    exact updatePaneList_map_all _ _ _ _ (fun p => rfl)

/-- Witness for C7 on the initial workspace. -/
theorem openTab_idempotent_witness :
    findPane initialWorkspace initialWorkspace.activePaneId =
      some { id := "main", tabs := [], activeTabId := none } ∧
    (openTab (openTab initialWorkspace "t1" "c1" .dataGrid "users"
        { schema := some "public", table := some "users" }).2
      "t2" "c1" .dataGrid "users"
        { schema := some "public", table := some "users" }).1 =
      (openTab initialWorkspace "t1" "c1" .dataGrid "users"
        { schema := some "public", table := some "users" }).1 :=
  ⟨by decide,
   (openTab_idempotent initialWorkspace
     { id := "main", tabs := [], activeTabId := none } "t1" "t2" "c1" "users"
     "users" .dataGrid { schema := some "public", table := some "users" }
     (by decide) rfl).1⟩

/-! ### C8: moveTab round trip -/

theorem eraseIdx_append_cons (a : List α) (x : α) (u : List α) :
    (a ++ x :: u).eraseIdx a.length = a ++ u := by
  induction a with
  | nil => rfl
  | cons y rest ih => simp [List.eraseIdx, ih]

theorem getElem?_append_cons (a : List α) (x : α) (u : List α) :
    (a ++ x :: u)[a.length]? = some x := by
  induction a with
  | nil => simp
  | cons y rest ih => simpa using ih

theorem findTabIdx_append_clean (a : List Tab) (x : Tab) (u : List Tab)
    (tid : String) (ha : ∀ y ∈ a, y.id ≠ tid) (hx : x.id = tid) :
    findTabIdx (a ++ x :: u) tid = some a.length := by
  induction a with
  | nil => simp [findTabIdx, hx]
  | cons y rest ih =>
    have hy : y.id ≠ tid := ha y (by simp)
    rw [List.cons_append]
    simp only [findTabIdx, if_neg hy, ih (fun z hz => ha z (by simp [hz]))]
    rfl

theorem jsInsertIdx_restore (u₁ u₂ : List α) (x : α) :
    jsInsertIdx u₁.length x (u₁ ++ u₂) = u₁ ++ x :: u₂ := by
  unfold jsInsertIdx
  rw [List.take_left, List.drop_left]

/-- C8: moving a tab from pane A (where it sits at index i0) to a
distinct pane B and back to index i0 restores every pane's tab sequence
exactly, provided B does not already hold a tab with the same id.
(`activeTabId` focus is not restored — the claim only speaks of
membership and position.) -/
theorem moveTab_roundtrip (w : Workspace) (A B tid : String)
    (paneA paneB : Pane) (i i0 : Nat)
    (hAB : A ≠ B)
    (hA : findPane w A = some paneA)
    (hB : findPane w B = some paneB)
    (hi0 : findTabIdx paneA.tabs tid = some i0)
    (hBnot : ∀ y ∈ paneB.tabs, y.id ≠ tid) :
    (moveTab (moveTab w A B tid i) B A tid i0).panes.map (fun p => (p.id, p.tabs)) =
      w.panes.map (fun p => (p.id, p.tabs)) := by
  obtain ⟨u₁, x, u₂, hsplitA, hlen1, hxid, hfreeA, heraseA, hgetA⟩ :=
    findTabIdx_some _ _ _ hi0
  have hBA : B ≠ A := Ne.symm hAB
  set fA : Pane → Pane := fun p => { p with tabs := p.tabs.eraseIdx i0, activeTabId := if p.activeTabId = some tid then jsOrNull (((p.tabs.eraseIdx i0)[0]?).map Tab.id) else p.activeTabId } with hfA
  set fB : Pane → Pane := fun p => { p with tabs := jsInsertIdx i x p.tabs, activeTabId := some tid } with hfB
  set gB : Pane → Pane := fun p => { p with tabs := p.tabs.eraseIdx (paneB.tabs.take i).length, activeTabId := if p.activeTabId = some tid then jsOrNull (((p.tabs.eraseIdx (paneB.tabs.take i).length)[0]?).map Tab.id) else p.activeTabId } with hgB
  set gA : Pane → Pane := fun p => { p with tabs := jsInsertIdx i0 x p.tabs, activeTabId := some tid } with hgA
  have hfAid : ∀ p, (fA p).id = p.id := fun p => rfl
  have hfBid : ∀ p, (fB p).id = p.id := fun p => rfl
  have hgBid : ∀ p, (gB p).id = p.id := fun p => rfl
  have hgAid : ∀ p, (gA p).id = p.id := fun p => rfl
  have h1 : moveTab w A B tid i =
      { w with panes := updatePaneList (updatePaneList w.panes A fA) B fB } := by
    simp only [moveTab, hA, hB, hi0, hgetA, if_neg hAB]
  have hB1 : findPane { w with panes := updatePaneList (updatePaneList w.panes A fA) B fB } B = some (fB paneB) := by
    show findPaneList (updatePaneList (updatePaneList w.panes A fA) B fB) B = some (fB paneB)
    rw [findPaneList_updatePaneList_self _ B fB hfBid,
      findPaneList_updatePaneList_ne _ A B fA hAB hfAid,
      show findPaneList w.panes B = some paneB from hB]
    rfl
  have hA1 : findPane { w with panes := updatePaneList (updatePaneList w.panes A fA) B fB } A = some (fA paneA) := by
    show findPaneList (updatePaneList (updatePaneList w.panes A fA) B fB) A = some (fA paneA)
    rw [findPaneList_updatePaneList_ne _ B A fB hBA hfBid,
      findPaneList_updatePaneList_self _ A fA hfAid,
      show findPaneList w.panes A = some paneA from hA]
    rfl
  have htake : ∀ y ∈ paneB.tabs.take i, y.id ≠ tid :=
    fun y hy => hBnot y (List.mem_of_mem_take hy)
  have hidx2 : findTabIdx (fB paneB).tabs tid = some (paneB.tabs.take i).length := by
    show findTabIdx (paneB.tabs.take i ++ x :: paneB.tabs.drop i) tid = _
    exact findTabIdx_append_clean _ x _ tid htake hxid
  have hget2 : (fB paneB).tabs[(paneB.tabs.take i).length]? = some x := by
    show (paneB.tabs.take i ++ x :: paneB.tabs.drop i)[(paneB.tabs.take i).length]? = some x
    exact getElem?_append_cons _ x _
  have h2 : moveTab { w with panes := updatePaneList (updatePaneList w.panes A fA) B fB } B A tid i0 =
      { w with panes := updatePaneList (updatePaneList (updatePaneList (updatePaneList w.panes A fA) B fB) B gB) A gA } := by
    simp only [moveTab, hB1, hA1, hidx2, hget2, if_neg hBA]
  rw [h1, h2]
  show (updatePaneList (updatePaneList (updatePaneList (updatePaneList w.panes A fA) B fB) B gB) A gA).map (fun p => (p.id, p.tabs)) = w.panes.map (fun p => (p.id, p.tabs))
  rw [updatePaneList_comp _ B fB gB hfBid,
    updatePaneList_comm _ A B fA (fun p => gB (fB p)) hAB hfAid
      (fun p => (hgBid (fB p)).trans (hfBid p)),
    updatePaneList_comp _ A fA gA hfAid]
  have hrestoreB : (gB (fB paneB)).tabs = paneB.tabs := by
    show (paneB.tabs.take i ++ x :: paneB.tabs.drop i).eraseIdx (paneB.tabs.take i).length = paneB.tabs
    rw [eraseIdx_append_cons, List.take_append_drop]
  have hrestoreA : (gA (fA paneA)).tabs = paneA.tabs := by
    show jsInsertIdx i0 x (paneA.tabs.eraseIdx i0) = paneA.tabs
    rw [heraseA, ← hlen1, jsInsertIdx_restore, ← hsplitA]
  rw [updatePaneList_map_of_first _ A (fun p => gA (fA p)) paneA _
    (by rw [findPaneList_updatePaneList_ne _ B A _ hBA
        (fun p => (hgBid (fB p)).trans (hfBid p))]
        exact hA)
    (by show ((gA (fA paneA)).id, (gA (fA paneA)).tabs) = (paneA.id, paneA.tabs)
        rw [show (gA (fA paneA)).id = paneA.id from (hgAid _).trans (hfAid _),
          hrestoreA])]
  rw [updatePaneList_map_of_first _ B (fun p => gB (fB p)) paneB _ hB
    (by show ((gB (fB paneB)).id, (gB (fB paneB)).tabs) = (paneB.id, paneB.tabs)
        rw [show (gB (fB paneB)).id = paneB.id from (hgBid _).trans (hfBid _),
          hrestoreB])]

/-- A two-pane workspace used to witness the move round trip. -/
def roundTripW : Workspace :=
  { panes := [{ id := "a", tabs := [sampleTab, { sampleTab with id := "t2" }],
                activeTabId := some "t1" },
              { id := "b", tabs := [{ sampleTab with id := "t3" }],
                activeTabId := some "t3" }],
    activePaneId := "a", splitDirection := some .vertical }

/-- Witness for C8: move t2 from pane a (index 1) to pane b and back. -/
theorem moveTab_roundtrip_witness :
    (moveTab (moveTab roundTripW "a" "b" "t2" 5) "b" "a" "t2" 1).panes.map
        (fun p => (p.id, p.tabs)) =
      roundTripW.panes.map (fun p => (p.id, p.tabs)) :=
  moveTab_roundtrip roundTripW "a" "b" "t2"
    { id := "a", tabs := [sampleTab, { sampleTab with id := "t2" }],
      activeTabId := some "t1" }
    { id := "b", tabs := [{ sampleTab with id := "t3" }], activeTabId := some "t3" }
    5 1 (by decide) (by decide) (by decide) (by decide) (by decide)

/-! ### C1: tab-ownership invariant toolkit -/

theorem flatIds_decomp_of_find (ps : List Pane) (pid : String) (p₀ : Pane)
    (hfind : findPaneList ps pid = some p₀) :
    ∃ F1 F2, flatIds ps = F1 ++ (paneIds p₀ ++ F2) ∧
      ∀ f, flatIds (updatePaneList ps pid f) = F1 ++ (paneIds (f p₀) ++ F2) := by
  obtain ⟨_, l₁, l₂, hsplit, _, hupd⟩ := findPaneList_some ps pid p₀ hfind
  refine ⟨flatIds l₁, flatIds l₂, ?_, fun f => ?_⟩
  · rw [hsplit, flatIds_append, flatIds_cons]
  · rw [hupd f, flatIds_append, flatIds_cons]

theorem updatePaneList_eq_of_find_none (ps : List Pane) (pid : String)
    (f : Pane → Pane) (h : findPaneList ps pid = none) :
    updatePaneList ps pid f = ps :=
  (findPaneList_none ps pid h).2 f

theorem tabUniq_update_sublist (w : Workspace) (pid : String) (f : Pane → Pane)
    (p₀ : Pane) (hfind : findPaneList w.panes pid = some p₀)
    (hp : List.Sublist (paneIds (f p₀)) (paneIds p₀)) (h : TabUniq w) :
    TabUniq { w with panes := updatePaneList w.panes pid f } := by
  obtain ⟨F1, F2, hflat, hupd⟩ := flatIds_decomp_of_find _ _ _ hfind
  show (flatIds (updatePaneList w.panes pid f)).Nodup
  rw [hupd f]
  have h2 : (flatIds w.panes).Nodup := h
  rw [hflat] at h2
  exact h2.sublist
    ((List.Sublist.refl F1).append (hp.append (List.Sublist.refl F2)))

theorem tabUniq_update_perm_cons (w : Workspace) (pid : String) (f : Pane → Pane)
    (p₀ : Pane) (a : String) (hfind : findPaneList w.panes pid = some p₀)
    (hp : (paneIds (f p₀)).Perm (a :: paneIds p₀)) (ha : a ∉ allTabIds w)
    (h : TabUniq w) :
    TabUniq { w with panes := updatePaneList w.panes pid f } := by
  obtain ⟨F1, F2, hflat, hupd⟩ := flatIds_decomp_of_find _ _ _ hfind
  show (flatIds (updatePaneList w.panes pid f)).Nodup
  rw [hupd f]
  have hstep1 : (F1 ++ (paneIds (f p₀) ++ F2)).Perm
      (F1 ++ ((a :: paneIds p₀) ++ F2)) :=
    List.Perm.append_left F1 (hp.append (List.Perm.refl F2))
  have hstep3 : (F1 ++ (a :: (paneIds p₀ ++ F2))).Perm
      (a :: (F1 ++ (paneIds p₀ ++ F2))) := List.perm_middle
  have hperm : (F1 ++ (paneIds (f p₀) ++ F2)).Perm
      (a :: (F1 ++ (paneIds p₀ ++ F2))) := hstep1.trans hstep3
  have h2 : (flatIds w.panes).Nodup := h
  have ha2 : a ∉ flatIds w.panes := ha
  rw [hflat] at h2 ha2
  exact (hperm.nodup_iff).mpr (List.nodup_cons.mpr ⟨ha2, h2⟩)

theorem tabUniq_update_perm (w : Workspace) (pid : String) (f : Pane → Pane)
    (p₀ : Pane) (hfind : findPaneList w.panes pid = some p₀)
    (hp : (paneIds (f p₀)).Perm (paneIds p₀)) (h : TabUniq w) :
    TabUniq { w with panes := updatePaneList w.panes pid f } := by
  obtain ⟨F1, F2, hflat, hupd⟩ := flatIds_decomp_of_find _ _ _ hfind
  show (flatIds (updatePaneList w.panes pid f)).Nodup
  rw [hupd f]
  have h2 : (flatIds w.panes).Nodup := h
  rw [hflat] at h2
  exact ((List.Perm.append_left F1 (hp.append (List.Perm.refl F2))).nodup_iff).mpr h2

theorem flatIds_eraseIdx_sublist (ps : List Pane) (i : Nat) :
    List.Sublist (flatIds (ps.eraseIdx i)) (flatIds ps) := by
  induction ps generalizing i with
  | nil => simp [flatIds]
  | cons p rest ih =>
    cases i with
    | zero =>
      show List.Sublist (flatIds rest) (flatIds (p :: rest))
      rw [flatIds_cons]
      exact List.sublist_append_right _ _
    | succ j =>
      show List.Sublist (flatIds (p :: rest.eraseIdx j)) (flatIds (p :: rest))
      rw [flatIds_cons, flatIds_cons]
      exact (List.Sublist.refl _).append (ih j)

theorem tabUniq_closePane (w : Workspace) (pid : String) (h : TabUniq w) :
    TabUniq (closePane w pid) := by
  unfold closePane
  by_cases hl : w.panes.length ≤ 1
  · rw [if_pos hl]; exact h
  · rw [if_neg hl]
    cases hidx : findPaneIdx w.panes pid with
    | none => exact h
    | some i =>
      show (flatIds (w.panes.eraseIdx i)).Nodup
      exact List.Nodup.sublist (flatIds_eraseIdx_sublist w.panes i) h

theorem eraseIdx_map_ids_sublist (ts : List Tab) (i : Nat) :
    List.Sublist ((ts.eraseIdx i).map Tab.id) (ts.map Tab.id) :=
  (List.eraseIdx_sublist ts i).map Tab.id

theorem removeFirstById_sublist (ts : List Tab) (tid : String) :
    List.Sublist (removeFirstById ts tid) ts := by
  unfold removeFirstById
  cases findTabIdx ts tid with
  | none => exact List.Sublist.refl ts
  | some i => exact List.eraseIdx_sublist ts i

theorem foldl_removeFirstById_sublist (l : List Tab) (acc : List Tab) :
    List.Sublist (l.foldl (fun acc t => removeFirstById acc t.id) acc) acc := by
  induction l generalizing acc with
  | nil => exact List.Sublist.refl acc
  | cons t rest ih =>
    rw [List.foldl_cons]
    exact (ih _).trans (removeFirstById_sublist acc t.id)

theorem nodup_middle_extract (F1 I₁ I₂ F2 : List String) (a : String)
    (h : (F1 ++ ((I₁ ++ a :: I₂) ++ F2)).Nodup) :
    a ∉ F1 ++ ((I₁ ++ I₂) ++ F2) ∧ (F1 ++ ((I₁ ++ I₂) ++ F2)).Nodup := by
  have hperm : (F1 ++ ((I₁ ++ a :: I₂) ++ F2)).Perm
      (a :: (F1 ++ ((I₁ ++ I₂) ++ F2))) := by
    have e : F1 ++ ((I₁ ++ a :: I₂) ++ F2) = (F1 ++ I₁) ++ a :: (I₂ ++ F2) := by
      simp [List.append_assoc]
    have e2 : F1 ++ ((I₁ ++ I₂) ++ F2) = (F1 ++ I₁) ++ (I₂ ++ F2) := by
      simp [List.append_assoc]
    rw [e, e2]
    exact List.perm_middle
  have h2 := (hperm.nodup_iff).mp h
  exact ⟨(List.nodup_cons.mp h2).1, (List.nodup_cons.mp h2).2⟩

theorem tabUniq_openTab (w : Workspace) (fid conn ti : String) (ty : TabType)
    (opts : OpenTabOptions) (hfresh : fid ∉ allTabIds w) (h : TabUniq w) :
    TabUniq (openTab w fid conn ty ti opts).2 := by
  cases hp : findPane w w.activePaneId with
  | none => simp only [openTab, hp]; exact h
  | some pane =>
    cases hE : (if opts.forceNew then none
        else findMatchingTab pane.tabs conn ty opts.schema opts.table) with
    | some t =>
      simp only [openTab, hp, hE]
      exact tabUniq_update_sublist w _ _ pane hp (List.Sublist.refl _) h
    | none =>
      simp only [openTab, hp, hE]
      refine tabUniq_update_perm_cons w _ _ pane fid hp ?_ hfresh h
      show (List.map Tab.id (pane.tabs ++ [mkOpenTab fid conn ty ti opts])).Perm
        (fid :: List.map Tab.id pane.tabs)
      simp only [List.map_append, List.map_cons, List.map_nil]
      exact List.perm_append_singleton _ _

theorem tabUniq_closeTab (w : Workspace) (pid tid : String) (h : TabUniq w) :
    TabUniq (closeTab w pid tid) := by
  cases hp : findPane w pid with
  | none => simp only [closeTab, hp]; exact h
  | some pane =>
    cases hi : findTabIdx pane.tabs tid with
    | none => simp only [closeTab, hp, hi]; exact h
    | some idx =>
      simp only [closeTab, hp, hi]
      have hw1 := tabUniq_update_sublist w pid (fun p => { p with tabs := pane.tabs.eraseIdx idx, activeTabId := if pane.activeTabId = some tid then jsOrNull (((pane.tabs.eraseIdx idx)[idx - 1]?).map Tab.id) else pane.activeTabId }) pane hp (eraseIdx_map_ids_sublist pane.tabs idx) h
      by_cases hc : (pane.tabs.eraseIdx idx).length = 0 ∧ 1 < (updatePaneList w.panes pid (fun p => { p with tabs := pane.tabs.eraseIdx idx, activeTabId := if pane.activeTabId = some tid then jsOrNull (((pane.tabs.eraseIdx idx)[idx - 1]?).map Tab.id) else pane.activeTabId })).length
      · rw [if_pos hc]; exact tabUniq_closePane _ pid hw1
      · rw [if_neg hc]; exact hw1

theorem tabUniq_closeOtherTabs (w : Workspace) (pid keep : String)
    (h : TabUniq w) : TabUniq (closeOtherTabs w pid keep) := by
  cases hp : findPane w pid with
  | none => simp only [closeOtherTabs, hp]; exact h
  | some pane =>
    simp only [closeOtherTabs, hp]
    exact tabUniq_update_sublist w pid _ pane hp
      ((List.filter_sublist _).map Tab.id) h

theorem tabUniq_closeSavedTabs (w : Workspace) (pid : String) (h : TabUniq w) :
    TabUniq (closeSavedTabs w pid) := by
  cases hp : findPane w pid with
  | none => simp only [closeSavedTabs, hp]; exact h
  | some pane =>
    simp only [closeSavedTabs, hp]
    have hsub : List.Sublist
        ((pane.tabs.filter (fun t => !t.isDirty)).foldl
          (fun acc t => removeFirstById acc t.id) pane.tabs) pane.tabs :=
      foldl_removeFirstById_sublist _ _
    have hw1 := tabUniq_update_sublist w pid (fun p => { p with tabs := (pane.tabs.filter (fun t => !t.isDirty)).foldl (fun acc t => removeFirstById acc t.id) pane.tabs, activeTabId := fixActive pane.activeTabId ((pane.tabs.filter (fun t => !t.isDirty)).foldl (fun acc t => removeFirstById acc t.id) pane.tabs) (jsOrNull ((((pane.tabs.filter (fun t => !t.isDirty)).foldl (fun acc t => removeFirstById acc t.id) pane.tabs)[0]?).map Tab.id)) }) pane hp (hsub.map Tab.id) h
    by_cases hc : ((pane.tabs.filter (fun t => !t.isDirty)).foldl (fun acc t => removeFirstById acc t.id) pane.tabs).length = 0 ∧ 1 < (updatePaneList w.panes pid (fun p => { p with tabs := (pane.tabs.filter (fun t => !t.isDirty)).foldl (fun acc t => removeFirstById acc t.id) pane.tabs, activeTabId := fixActive pane.activeTabId ((pane.tabs.filter (fun t => !t.isDirty)).foldl (fun acc t => removeFirstById acc t.id) pane.tabs) (jsOrNull ((((pane.tabs.filter (fun t => !t.isDirty)).foldl (fun acc t => removeFirstById acc t.id) pane.tabs)[0]?).map Tab.id)) })).length
    · rw [if_pos hc]; exact tabUniq_closePane _ pid hw1
    · rw [if_neg hc]; exact hw1

theorem tabUniq_closeTabsToRight (w : Workspace) (pid tid : String)
    (h : TabUniq w) : TabUniq (closeTabsToRight w pid tid) := by
  cases hp : findPane w pid with
  | none => simp only [closeTabsToRight, hp]; exact h
  | some pane =>
    cases hi : findTabIdx pane.tabs tid with
    | none => simp only [closeTabsToRight, hp, hi]; exact h
    | some idx =>
      simp only [closeTabsToRight, hp, hi]
      exact tabUniq_update_sublist w pid _ pane hp
        ((List.take_sublist _ _).map Tab.id) h

theorem tabUniq_setActiveTab (w : Workspace) (pid tid : String) (h : TabUniq w) :
    TabUniq (setActiveTab w pid tid) := by
  cases hp : findPane w pid with
  | none => simp only [setActiveTab, hp]; exact h
  | some pane =>
    simp only [setActiveTab, hp]
    exact tabUniq_update_sublist w pid _ pane hp (List.Sublist.refl _) h

theorem tabUniq_setActivePane (w : Workspace) (pid : String) (h : TabUniq w) :
    TabUniq (setActivePane w pid) := h

theorem tabUniq_nextTab (w : Workspace) (h : TabUniq w) : TabUniq (nextTab w) := by
  cases hp : findPane w w.activePaneId with
  | none => simp only [nextTab, hp]; exact h
  | some pane =>
    simp only [nextTab, hp]
    by_cases h0 : pane.tabs.length = 0
    · rw [if_pos h0]; exact h
    · rw [if_neg h0]
      exact tabUniq_update_sublist w _ _ pane hp (List.Sublist.refl _) h

theorem tabUniq_previousTab (w : Workspace) (h : TabUniq w) :
    TabUniq (previousTab w) := by
  cases hp : findPane w w.activePaneId with
  | none => simp only [previousTab, hp]; exact h
  | some pane =>
    simp only [previousTab, hp]
    by_cases h0 : pane.tabs.length = 0
    · rw [if_pos h0]; exact h
    · rw [if_neg h0]
      exact tabUniq_update_sublist w _ _ pane hp (List.Sublist.refl _) h

theorem tabUniq_closeActiveTab (w : Workspace) (h : TabUniq w) :
    TabUniq (closeActiveTab w) := by
  cases hp : findPane w w.activePaneId with
  | none => simp only [closeActiveTab, hp]; exact h
  | some pane =>
    cases ha : pane.activeTabId with
    | none => simp only [closeActiveTab, hp, ha]; exact h
    | some a =>
      simp only [closeActiveTab, hp, ha]
      by_cases he : a = ""
      · rw [if_pos he]; exact h
      · rw [if_neg he]; exact tabUniq_closeTab w pane.id a h

theorem tabUniq_setTabs (w : Workspace) (pid : String) (tabs : List Tab)
    (hperm : ∀ pane, findPane w pid = some pane →
      (tabs.map Tab.id).Perm (paneIds pane))
    (h : TabUniq w) : TabUniq (setTabs w pid tabs) := by
  cases hp : findPane w pid with
  | none => simp only [setTabs, hp]; exact h
  | some pane =>
    simp only [setTabs, hp]
    exact tabUniq_update_perm w pid _ pane hp (hperm pane hp) h

theorem tabUniq_addTabToPane (w : Workspace) (pid : String) (tab : Tab)
    (idx : Nat) (hfresh : tab.id ∉ allTabIds w) (h : TabUniq w) :
    TabUniq (addTabToPane w pid tab idx) := by
  cases hp : findPane w pid with
  | none => simp only [addTabToPane, hp]; exact h
  | some pane =>
    simp only [addTabToPane, hp]
    by_cases hg : hasTabId pane.tabs tab.id
    · rw [if_pos hg]; exact h
    · rw [if_neg hg]
      refine tabUniq_update_perm_cons w pid _ pane tab.id hp ?_ hfresh h
      show (List.map Tab.id (jsInsertIdx idx tab pane.tabs)).Perm
        (tab.id :: List.map Tab.id pane.tabs)
      simpa using (jsInsertIdx_perm idx tab pane.tabs).map Tab.id

theorem tabUniq_removeTabFromPane (w : Workspace) (pid tid : String)
    (h : TabUniq w) : TabUniq (removeTabFromPane w pid tid) := by
  cases hp : findPane w pid with
  | none => simp only [removeTabFromPane, hp]; exact h
  | some pane =>
    cases hi : findTabIdx pane.tabs tid with
    | none => simp only [removeTabFromPane, hp, hi]; exact h
    | some idx =>
      simp only [removeTabFromPane, hp, hi]
      have hw1 := tabUniq_update_sublist w pid (fun p => { p with tabs := pane.tabs.eraseIdx idx, activeTabId := if pane.activeTabId = some tid then jsOrNull (((pane.tabs.eraseIdx idx)[0]?).map Tab.id) else pane.activeTabId }) pane hp (eraseIdx_map_ids_sublist pane.tabs idx) h
      by_cases hc : (pane.tabs.eraseIdx idx).length = 0 ∧ 1 < (updatePaneList w.panes pid (fun p => { p with tabs := pane.tabs.eraseIdx idx, activeTabId := if pane.activeTabId = some tid then jsOrNull (((pane.tabs.eraseIdx idx)[0]?).map Tab.id) else pane.activeTabId })).length
      · rw [if_pos hc]; exact tabUniq_closePane _ pid hw1
      · rw [if_neg hc]; exact hw1

theorem updateFirstTab_map_id (ts : List Tab) (tid : String) (f : Tab → Tab)
    (hf : ∀ t, (f t).id = t.id) :
    (updateFirstTab ts tid f).map Tab.id = ts.map Tab.id := by
  induction ts with
  | nil => rfl
  | cons t rest ih =>
    by_cases ht : t.id = tid
    · simp [updateFirstTab, if_pos ht, hf t]
    · simp [updateFirstTab, if_neg ht, ih]

theorem flatIds_updateTabInPanes (ps : List Pane) (tid : String) (f : Tab → Tab)
    (hf : ∀ t, (f t).id = t.id) :
    flatIds (updateTabInPanes ps tid f) = flatIds ps := by
  induction ps with
  | nil => rfl
  | cons p rest ih =>
    by_cases hhit : hasTabId p.tabs tid
    · simp only [updateTabInPanes, hhit, if_true, flatIds_cons]
      show (updateFirstTab p.tabs tid f).map Tab.id ++ flatIds rest =
        paneIds p ++ flatIds rest
      rw [updateFirstTab_map_id p.tabs tid f hf]
      rfl
    · simp only [updateTabInPanes, hhit, if_false, Bool.false_eq_true, flatIds_cons, ih]

theorem tabUniq_updateTabQuery (w : Workspace) (tid q : String) (h : TabUniq w) :
    TabUniq (updateTabQuery w tid q) := by
  show (flatIds (updateTabInPanes w.panes tid _)).Nodup
  rw [flatIds_updateTabInPanes w.panes tid (fun t => { t with query := some q }) (fun t => rfl)]
  exact h

theorem tabUniq_setTabDirty (w : Workspace) (tid : String) (d : Bool)
    (h : TabUniq w) : TabUniq (setTabDirty w tid d) := by
  show (flatIds (updateTabInPanes w.panes tid _)).Nodup
  rw [flatIds_updateTabInPanes w.panes tid (fun t => { t with isDirty := d }) (fun t => rfl)]
  exact h

theorem tabUniq_updateTabMetadata (w : Workspace) (tid : String)
    (m : List (String × String)) (h : TabUniq w) :
    TabUniq (updateTabMetadata w tid m) := by
  show (flatIds (updateTabInPanes w.panes tid _)).Nodup
  rw [flatIds_updateTabInPanes w.panes tid (fun t => { t with metadata := mergeMeta t.metadata m }) (fun t => rfl)]
  exact h

theorem tabUniq_updateTabTitle (w : Workspace) (tid ti : String) (h : TabUniq w) :
    TabUniq (updateTabTitle w tid ti) := by
  show (flatIds (updateTabInPanes w.panes tid _)).Nodup
  rw [flatIds_updateTabInPanes w.panes tid (fun t => { t with title := ti }) (fun t => rfl)]
  exact h

theorem tabUniq_moveTab (w : Workspace) (fromPid toPid tid : String) (toIdx : Nat)
    (h : TabUniq w) : TabUniq (moveTab w fromPid toPid tid toIdx) := by
  cases hf : findPane w fromPid with
  | none => simp only [moveTab, hf]; exact h
  | some fromPane =>
    cases ht : findPane w toPid with
    | none => simp only [moveTab, hf, ht]; exact h
    | some toPane =>
      cases hi : findTabIdx fromPane.tabs tid with
      | none => simp only [moveTab, hf, ht, hi]; exact h
      | some tabIndex =>
        cases hg : fromPane.tabs[tabIndex]? with
        | none => simp only [moveTab, hf, ht, hi, hg]; exact h
        | some tab =>
          obtain ⟨u₁, x, u₂, hsplit, hlen1, hxid, hfree, herase, hget⟩ :=
            findTabIdx_some _ _ _ hi
          have hxtab : x = tab := by
            rw [hget] at hg; exact Option.some.inj hg
          subst hxtab
          simp only [moveTab, hf, ht, hi, hg]
          by_cases hsame : fromPid = toPid
          · rw [if_pos hsame]
            refine tabUniq_update_perm w fromPid _ fromPane hf ?_ h
            show (List.map Tab.id (jsInsertIdx toIdx x (fromPane.tabs.eraseIdx tabIndex))).Perm (paneIds fromPane)
            have p1 : (List.map Tab.id (jsInsertIdx toIdx x (fromPane.tabs.eraseIdx tabIndex))).Perm
                (x.id :: List.map Tab.id (fromPane.tabs.eraseIdx tabIndex)) := by
              simpa using (jsInsertIdx_perm toIdx x (fromPane.tabs.eraseIdx tabIndex)).map Tab.id
            have p2 : (paneIds fromPane).Perm
                (x.id :: List.map Tab.id (fromPane.tabs.eraseIdx tabIndex)) := by
              rw [herase]
              show (List.map Tab.id fromPane.tabs).Perm _
              rw [hsplit]
              simp only [List.map_append, List.map_cons]
              exact List.perm_middle
            exact p1.trans p2.symm
          · rw [if_neg hsame]
            have htA : findPaneList (updatePaneList w.panes fromPid (fun p => { p with tabs := p.tabs.eraseIdx tabIndex, activeTabId := if p.activeTabId = some tid then jsOrNull (((p.tabs.eraseIdx tabIndex)[0]?).map Tab.id) else p.activeTabId })) toPid = some toPane := by
              rw [findPaneList_updatePaneList_ne w.panes fromPid toPid (fun p => { p with tabs := p.tabs.eraseIdx tabIndex, activeTabId := if p.activeTabId = some tid then jsOrNull (((p.tabs.eraseIdx tabIndex)[0]?).map Tab.id) else p.activeTabId }) hsame (fun p => rfl)]
              exact ht
            obtain ⟨F1, F2, hflat, hupdF⟩ := flatIds_decomp_of_find w.panes fromPid fromPane hf
            have hids : paneIds fromPane = u₁.map Tab.id ++ (tid :: u₂.map Tab.id) := by
              show List.map Tab.id fromPane.tabs = _
              rw [hsplit]
              simp only [List.map_append, List.map_cons, hxid]
            have hN : (F1 ++ ((u₁.map Tab.id ++ tid :: u₂.map Tab.id) ++ F2)).Nodup := by
              have h2 : (flatIds w.panes).Nodup := h
              rw [hflat, hids] at h2
              exact h2
            have hkey := nodup_middle_extract F1 (u₁.map Tab.id) (u₂.map Tab.id) F2 tid hN
            have hw1flat : flatIds (updatePaneList w.panes fromPid (fun p => { p with tabs := p.tabs.eraseIdx tabIndex, activeTabId := if p.activeTabId = some tid then jsOrNull (((p.tabs.eraseIdx tabIndex)[0]?).map Tab.id) else p.activeTabId })) = F1 ++ ((u₁.map Tab.id ++ u₂.map Tab.id) ++ F2) := by
              rw [hupdF]
              show F1 ++ (List.map Tab.id (fromPane.tabs.eraseIdx tabIndex) ++ F2) = _
              rw [herase, List.map_append]
            have hw1 : TabUniq { w with panes := updatePaneList w.panes fromPid (fun p => { p with tabs := p.tabs.eraseIdx tabIndex, activeTabId := if p.activeTabId = some tid then jsOrNull (((p.tabs.eraseIdx tabIndex)[0]?).map Tab.id) else p.activeTabId }) } := by
              show (flatIds (updatePaneList w.panes fromPid _)).Nodup
              rw [hw1flat]
              exact hkey.2
            have ha : tid ∉ allTabIds { w with panes := updatePaneList w.panes fromPid (fun p => { p with tabs := p.tabs.eraseIdx tabIndex, activeTabId := if p.activeTabId = some tid then jsOrNull (((p.tabs.eraseIdx tabIndex)[0]?).map Tab.id) else p.activeTabId }) } := by
              show tid ∉ flatIds (updatePaneList w.panes fromPid _)
              rw [hw1flat]
              exact hkey.1
            refine tabUniq_update_perm_cons _ toPid (fun p => { p with tabs := jsInsertIdx toIdx x p.tabs, activeTabId := some tid }) toPane tid htA ?_ ha hw1
            show (List.map Tab.id (jsInsertIdx toIdx x toPane.tabs)).Perm (tid :: paneIds toPane)
            have p1 : (List.map Tab.id (jsInsertIdx toIdx x toPane.tabs)).Perm
                (x.id :: List.map Tab.id toPane.tabs) := by
              simpa using (jsInsertIdx_perm toIdx x toPane.tabs).map Tab.id
            rw [hxid] at p1
            exact p1

theorem map_congr_on (l : List Pane) (g er : Pane → Pane)
    (h : ∀ p ∈ l, g p = er p) : l.map g = l.map er := by
  induction l with
  | nil => rfl
  | cons p rest ih =>
    rw [List.map_cons, List.map_cons, h p (by simp),
      ih (fun q hq => h q (by simp [hq]))]

theorem flatIds_map_er_sublist (ps : List Pane) (er : Pane → Pane)
    (her : ∀ p, List.Sublist (paneIds (er p)) (paneIds p)) :
    List.Sublist (flatIds (ps.map er)) (flatIds ps) := by
  induction ps with
  | nil => exact List.Sublist.refl _
  | cons p rest ih =>
    rw [List.map_cons, flatIds_cons, flatIds_cons]
    exact (her p).append ih

theorem mem_flatIds (a : String) (ps : List Pane) :
    a ∈ flatIds ps ↔ ∃ p ∈ ps, a ∈ paneIds p := by
  induction ps with
  | nil => simp [flatIds]
  | cons p rest ih =>
    rw [flatIds_cons, List.mem_append, ih]
    constructor
    · rintro (hm | ⟨q, hq, hmq⟩)
      · exact ⟨p, by simp, hm⟩
      · exact ⟨q, by simp [hq], hmq⟩
    · rintro ⟨q, hq, hmq⟩
      rcases List.mem_cons.mp hq with hq | hq
      · exact Or.inl (hq ▸ hmq)
      · exact Or.inr ⟨q, hq, hmq⟩

theorem paneIds_sublist_flat (p : Pane) (ps : List Pane) (hp : p ∈ ps) :
    List.Sublist (paneIds p) (flatIds ps) := by
  induction ps with
  | nil => cases hp
  | cons q rest ih =>
    rw [flatIds_cons]
    rcases List.mem_cons.mp hp with hq | hq
    · rw [hq]
      exact List.sublist_append_left _ _
    · exact (ih hq).trans (List.sublist_append_right _ _)

theorem paneIds_nodup_of_flat (ps : List Pane) (h : (flatIds ps).Nodup) :
    ∀ p ∈ ps, (paneIds p).Nodup :=
  fun p hp => h.sublist (paneIds_sublist_flat p ps hp)

theorem flatIds_jsInsert (k : Nat) (np : Pane) (ps : List Pane) :
    flatIds (jsInsertIdx k np ps) =
      flatIds (ps.take k) ++ (paneIds np ++ flatIds (ps.drop k)) := by
  unfold jsInsertIdx
  rw [flatIds_append, flatIds_cons]

theorem flatIds_take_drop (ps : List Pane) (k : Nat) :
    flatIds (ps.take k) ++ flatIds (ps.drop k) = flatIds ps := by
  rw [← flatIds_append, List.take_append_drop]

theorem jsInsertIdx_at_length (np : α) (l : List α) :
    jsInsertIdx l.length np l = l ++ [np] := by
  unfold jsInsertIdx
  rw [List.take_length, List.drop_length]

theorem tabUniq_insert_erased (ps : List Pane) (k : Nat) (np : Pane) (a : String)
    (g er : Pane → Pane)
    (hg : ∀ p ∈ ps, g p = er p) (hgnp : g np = np)
    (hnp : paneIds np = [a])
    (her : ∀ p, List.Sublist (paneIds (er p)) (paneIds p))
    (hgone : ∀ p ∈ ps, a ∉ paneIds (er p))
    (h : (flatIds ps).Nodup) :
    (flatIds ((jsInsertIdx k np ps).map g)).Nodup := by
  have hmaps : (jsInsertIdx k np ps).map g = jsInsertIdx k np (ps.map er) := by
    show (ps.take k ++ np :: ps.drop k).map g =
      (ps.map er).take k ++ np :: (ps.map er).drop k
    rw [List.map_append, List.map_cons, hgnp,
      map_congr_on (ps.take k) g er (fun p hp => hg p (List.mem_of_mem_take hp)),
      map_congr_on (ps.drop k) g er (fun p hp => hg p (List.mem_of_mem_drop hp)),
      List.map_take, List.map_drop]
  rw [hmaps, flatIds_jsInsert, hnp]
  have heq : flatIds ((ps.map er).take k) ++ flatIds ((ps.map er).drop k) =
      flatIds (ps.map er) := flatIds_take_drop _ _
  have hp2 : (flatIds ((ps.map er).take k) ++
      a :: flatIds ((ps.map er).drop k)).Perm
      (a :: (flatIds ((ps.map er).take k) ++ flatIds ((ps.map er).drop k))) :=
    List.perm_middle
  rw [heq] at hp2
  refine hp2.nodup_iff.mpr (List.nodup_cons.mpr ⟨?_, ?_⟩)
  · intro hmem
    obtain ⟨q, hq, hmq⟩ := (mem_flatIds a _).mp hmem
    obtain ⟨p, hp, hpq⟩ := List.mem_map.mp hq
    exact hgone p hp (hpq ▸ hmq)
  · exact h.sublist (flatIds_map_er_sublist ps er her)

theorem erased_id_not_mem (ts : List Tab) (tid : String)
    (hnodup : (ts.map Tab.id).Nodup) (i : Nat)
    (hidx : findTabIdx ts tid = some i) :
    tid ∉ (ts.eraseIdx i).map Tab.id := by
  obtain ⟨u₁, x, u₂, hsplit, _, hxid, hfree, herase, _⟩ := findTabIdx_some _ _ _ hidx
  rw [herase, List.map_append]
  intro hmem
  rcases List.mem_append.mp hmem with hm | hm
  · obtain ⟨y, hy, hyid⟩ := List.mem_map.mp hm
    exact hfree y hy hyid
  · rw [hsplit, List.map_append, List.map_cons] at hnodup
    have h2 := (List.nodup_append.mp hnodup).2.1
    have hx2 : x.id ∉ u₂.map Tab.id := (List.nodup_cons.mp h2).1
    rw [hxid] at hx2
    exact hx2 hm

theorem tabUniq_splitPane (w : Workspace) (fid tgt : String) (pos : DockEdge)
    (tab : Option Tab) (hfresh : fid ∉ w.panes.map Pane.id) (h : TabUniq w) :
    TabUniq (splitPane w fid tgt pos tab) := by
  by_cases hcap : 4 ≤ w.panes.length
  · simp only [splitPane, if_pos hcap]; exact h
  · have hne : ∀ p ∈ w.panes, ¬ p.id = fid := by
      intro p hp hpe
      exact hfresh (hpe ▸ List.mem_map_of_mem Pane.id hp)
    cases tab with
    | none =>
      have hcore : ∀ k, (flatIds (jsInsertIdx k { id := fid, tabs := ([] : List Tab), activeTabId := jsOrNull ((none : Option Tab).map Tab.id) } w.panes)).Nodup := by
        intro k
        rw [flatIds_jsInsert]
        show (flatIds (w.panes.take k) ++ ([] ++ flatIds (w.panes.drop k))).Nodup
        rw [List.nil_append, flatIds_take_drop]
        exact h
      cases hidx : findPaneIdx w.panes tgt with
      | none =>
        simp only [splitPane, if_neg hcap, hidx]
        have h2 := hcore w.panes.length
        rw [jsInsertIdx_at_length] at h2
        exact h2
      | some ti =>
        by_cases hpos : pos = DockEdge.left ∨ pos = DockEdge.top
        · simp only [splitPane, if_neg hcap, hidx, if_pos hpos]
          exact hcore ti
        · simp only [splitPane, if_neg hcap, hidx, if_neg hpos]
          exact hcore (ti + 1)
    | some t =>
      have hgone : ∀ p ∈ w.panes, t.id ∉ paneIds ((fun pane => match findTabIdx pane.tabs t.id with | none => pane | some tabIndex => { pane with tabs := pane.tabs.eraseIdx tabIndex, activeTabId := if pane.activeTabId = some t.id then jsOrNull (((pane.tabs.eraseIdx tabIndex)[0]?).map Tab.id) else pane.activeTabId }) p) := by
        intro p hp
        cases hti : findTabIdx p.tabs t.id with
        | none =>
          simp only [hti]
          intro hmem
          obtain ⟨y, hy, hyid⟩ := List.mem_map.mp hmem
          exact findTabIdx_none p.tabs t.id hti y hy hyid
        | some i =>
          simp only [hti]
          exact erased_id_not_mem p.tabs t.id
            (paneIds_nodup_of_flat w.panes h p hp) i hti
      have hcore : ∀ k, (flatIds ((jsInsertIdx k { id := fid, tabs := [t], activeTabId := jsOrNull ((some t).map Tab.id) } w.panes).map (fun pane => if pane.id = ({ id := fid, tabs := [t], activeTabId := jsOrNull ((some t).map Tab.id) } : Pane).id then pane else match findTabIdx pane.tabs t.id with | none => pane | some tabIndex => { pane with tabs := pane.tabs.eraseIdx tabIndex, activeTabId := if pane.activeTabId = some t.id then jsOrNull (((pane.tabs.eraseIdx tabIndex)[0]?).map Tab.id) else pane.activeTabId }))).Nodup := by
        intro k
        refine tabUniq_insert_erased w.panes k _ t.id _
          (fun pane => match findTabIdx pane.tabs t.id with | none => pane | some tabIndex => { pane with tabs := pane.tabs.eraseIdx tabIndex, activeTabId := if pane.activeTabId = some t.id then jsOrNull (((pane.tabs.eraseIdx tabIndex)[0]?).map Tab.id) else pane.activeTabId })
          ?_ ?_ rfl ?_ hgone h
        · intro p hp
          exact if_neg (hne p hp)
        · exact if_pos rfl
        · intro p
          cases hti : findTabIdx p.tabs t.id with
          | none => simp only [hti]; exact List.Sublist.refl _
          | some i => simp only [hti]; exact eraseIdx_map_ids_sublist p.tabs i
      cases hidx : findPaneIdx w.panes tgt with
      | none =>
        simp only [splitPane, if_neg hcap, hidx]
        have h2 := hcore w.panes.length
        rw [jsInsertIdx_at_length] at h2
        exact h2
      | some ti =>
        by_cases hpos : pos = DockEdge.left ∨ pos = DockEdge.top
        · simp only [splitPane, if_neg hcap, hidx, if_pos hpos]
          exact hcore ti
        · simp only [splitPane, if_neg hcap, hidx, if_neg hpos]
          exact hcore (ti + 1)

/-- Workspace states reachable by the store's operations from the
initial single-pane state.  Generated identifiers (from `generateId`)
are assumed fresh: `openTab` receives a tab id not present anywhere and
`splitPane` a pane id not naming an existing pane.  Per the amendment of
the ownership claim, `addTabToPane` is only invoked with a tab whose id
lives in no pane, and `setTabs` / `reorderTabs` only with a permutation
of the addressed pane's tabs (a drag reorder). -/
inductive ReachU : Workspace → Prop where
  | rInit : ReachU initialWorkspace
  | rOpenTab (w : Workspace) (fid conn ti : String) (ty : TabType)
      (opts : OpenTabOptions) : ReachU w → fid ∉ allTabIds w →
      ReachU (openTab w fid conn ty ti opts).2
  | rCloseTab (w : Workspace) (pid tid : String) : ReachU w →
      ReachU (closeTab w pid tid)
  | rCloseOtherTabs (w : Workspace) (pid keep : String) : ReachU w →
      ReachU (closeOtherTabs w pid keep)
  | rCloseSavedTabs (w : Workspace) (pid : String) : ReachU w →
      ReachU (closeSavedTabs w pid)
  | rCloseTabsToRight (w : Workspace) (pid tid : String) : ReachU w →
      ReachU (closeTabsToRight w pid tid)
  | rCloseActiveTab (w : Workspace) : ReachU w → ReachU (closeActiveTab w)
  | rNextTab (w : Workspace) : ReachU w → ReachU (nextTab w)
  | rPreviousTab (w : Workspace) : ReachU w → ReachU (previousTab w)
  | rSetTabs (w : Workspace) (pid : String) (tabs : List Tab) : ReachU w →
      (∀ pane, findPane w pid = some pane →
        (tabs.map Tab.id).Perm (paneIds pane)) →
      ReachU (setTabs w pid tabs)
  | rReorderTabs (w : Workspace) (pid : String) (tabs : List Tab) : ReachU w →
      (∀ pane, findPane w pid = some pane →
        (tabs.map Tab.id).Perm (paneIds pane)) →
      ReachU (reorderTabs w pid tabs)
  | rAddTabToPane (w : Workspace) (pid : String) (tab : Tab) (idx : Nat) :
      ReachU w → tab.id ∉ allTabIds w → ReachU (addTabToPane w pid tab idx)
  | rRemoveTabFromPane (w : Workspace) (pid tid : String) : ReachU w →
      ReachU (removeTabFromPane w pid tid)
  | rSetActiveTab (w : Workspace) (pid tid : String) : ReachU w →
      ReachU (setActiveTab w pid tid)
  | rSetActivePane (w : Workspace) (pid : String) : ReachU w →
      ReachU (setActivePane w pid)
  | rSplitPane (w : Workspace) (fid tgt : String) (pos : DockEdge)
      (tab : Option Tab) : ReachU w → fid ∉ w.panes.map Pane.id →
      ReachU (splitPane w fid tgt pos tab)
  | rClosePane (w : Workspace) (pid : String) : ReachU w →
      ReachU (closePane w pid)
  | rMoveTab (w : Workspace) (fromPid toPid tid : String) (toIdx : Nat) :
      ReachU w → ReachU (moveTab w fromPid toPid tid toIdx)
  | rUpdateTabQuery (w : Workspace) (tid q : String) : ReachU w →
      ReachU (updateTabQuery w tid q)
  | rSetTabDirty (w : Workspace) (tid : String) (d : Bool) : ReachU w →
      ReachU (setTabDirty w tid d)
  | rUpdateTabMetadata (w : Workspace) (tid : String)
      (m : List (String × String)) : ReachU w →
      ReachU (updateTabMetadata w tid m)
  | rUpdateTabTitle (w : Workspace) (tid ti : String) : ReachU w →
      ReachU (updateTabTitle w tid ti)

/-- C1 amended: in every workspace state reachable by the store's
operations — with generateId ids fresh, `addTabToPane` only given tabs
whose id lives in no pane, and `setTabs`/`reorderTabs` only reordering —
every tab id appears in the tabs sequence of exactly one pane and only
once there.  In particular `splitPane` with a tab taken from an existing
pane preserves this.  Without the `addTabToPane` restriction the
invariant is false: see the counterexample, where `addTabToPane` with a
tab already living in a different pane duplicates its id. -/
theorem reachable_tab_uniqueness (w : Workspace) (h : ReachU w) : TabUniq w := by
  induction h with
  | rInit => decide
  | rOpenTab w fid conn ti ty opts _ hfresh ih =>
    exact tabUniq_openTab w fid conn ti ty opts hfresh ih
  | rCloseTab w pid tid _ ih => exact tabUniq_closeTab w pid tid ih
  | rCloseOtherTabs w pid keep _ ih => exact tabUniq_closeOtherTabs w pid keep ih
  | rCloseSavedTabs w pid _ ih => exact tabUniq_closeSavedTabs w pid ih
  | rCloseTabsToRight w pid tid _ ih => exact tabUniq_closeTabsToRight w pid tid ih
  | rCloseActiveTab w _ ih => exact tabUniq_closeActiveTab w ih
  | rNextTab w _ ih => exact tabUniq_nextTab w ih
  | rPreviousTab w _ ih => exact tabUniq_previousTab w ih
  | rSetTabs w pid tabs _ hperm ih => exact tabUniq_setTabs w pid tabs hperm ih
  | rReorderTabs w pid tabs _ hperm ih =>
    exact tabUniq_setTabs w pid tabs hperm ih
  | rAddTabToPane w pid tab idx _ hfresh ih =>
    exact tabUniq_addTabToPane w pid tab idx hfresh ih
  | rRemoveTabFromPane w pid tid _ ih =>
    exact tabUniq_removeTabFromPane w pid tid ih
  | rSetActiveTab w pid tid _ ih => exact tabUniq_setActiveTab w pid tid ih
  | rSetActivePane w pid _ ih => exact tabUniq_setActivePane w pid ih
  | rSplitPane w fid tgt pos tab _ hfresh ih =>
    exact tabUniq_splitPane w fid tgt pos tab hfresh ih
  | rClosePane w pid _ ih => exact tabUniq_closePane w pid ih
  | rMoveTab w fromPid toPid tid toIdx _ ih =>
    exact tabUniq_moveTab w fromPid toPid tid toIdx ih
  | rUpdateTabQuery w tid q _ ih => exact tabUniq_updateTabQuery w tid q ih
  | rSetTabDirty w tid d _ ih => exact tabUniq_setTabDirty w tid d ih
  | rUpdateTabMetadata w tid m _ ih => exact tabUniq_updateTabMetadata w tid m ih
  | rUpdateTabTitle w tid ti _ ih => exact tabUniq_updateTabTitle w tid ti ih

/-- Witness for C1 amended: the two-pane state reached by opening a tab
and splitting it right is reachable and satisfies tab uniqueness. -/
theorem reachable_tab_uniqueness_witness : ReachU sampleW2 ∧ TabUniq sampleW2 := by
  have h1 : ReachU sampleW1 :=
    ReachU.rOpenTab initialWorkspace "t1" "c1" "users" TabType.dataGrid
      { schema := some "public", table := some "users" } ReachU.rInit (by decide)
  have h2 : ReachU sampleW2 :=
    ReachU.rSplitPane sampleW1 "p2" "main" DockEdge.right (some sampleTab) h1
      (by decide)
  exact ⟨h2, reachable_tab_uniqueness sampleW2 h2⟩

/-! ### C4: active-tab invariant toolkit -/

/-- The combined invariant for the active-tab claim: no tab carries the
falsy empty id, and every pane's active id points at one of its tabs. -/
def ActiveInv (w : Workspace) : Prop := NoEmptyIds w ∧ ActiveOk w

theorem paneActiveOk_mk (i : String) (ts : List Tab) (o : Option String)
    (h : ∀ a, o = some a → a ∈ ts.map Tab.id) :
    paneActiveOk { id := i, tabs := ts, activeTabId := o } := by
  cases o with
  | none => trivial
  | some a => exact h a rfl

theorem jsOrNull_mem (ts : List Tab) (i : Nat) (a : String)
    (h : jsOrNull ((ts[i]?).map Tab.id) = some a) : a ∈ ts.map Tab.id := by
  cases hg : ts[i]? with
  | none => rw [hg] at h; simp [jsOrNull] at h
  | some t =>
    rw [hg] at h
    simp only [Option.map_some', jsOrNull] at h
    by_cases he : t.id = ""
    · rw [if_pos he] at h; cases h
    · rw [if_neg he] at h
      have := Option.some.inj h
      rw [← this]
      have hm : t ∈ ts := by
        obtain ⟨hlt, he⟩ := List.getElem?_eq_some.mp hg
        exact he ▸ List.getElem_mem hlt
      exact List.mem_map_of_mem Tab.id hm

theorem fixActive_ok (active : Option String) (ts : List Tab) (fb : Option String)
    (hfb : ∀ a, fb = some a → a ∈ ts.map Tab.id)
    (hactive : ∀ a, active = some a → a ≠ "") :
    ∀ a, fixActive active ts fb = some a → a ∈ ts.map Tab.id := by
  intro a hfa
  cases ha : active with
  | none => rw [ha] at hfa; cases hfa
  | some b =>
    rw [ha] at hfa
    simp only [fixActive] at hfa
    by_cases hcond : b ≠ "" ∧ hasTabId ts b = false
    · rw [if_pos hcond] at hfa
      exact hfb a hfa
    · rw [if_neg hcond] at hfa
      have hab : b = a := Option.some.inj hfa
      subst hab
      have hbne : b ≠ "" := hactive b ha
      have hhas : hasTabId ts b = true := by
        by_contra hh
        exact hcond ⟨hbne, by simpa using hh⟩
      exact (hasTabId_iff ts b).mp hhas

theorem mem_erase_of_ne (ts : List Tab) (tid a : String) (i : Nat)
    (hidx : findTabIdx ts tid = some i) (ha : a ∈ ts.map Tab.id) (hne : a ≠ tid) :
    a ∈ (ts.eraseIdx i).map Tab.id := by
  obtain ⟨u₁, x, u₂, hsplit, _, hxid, _, herase, _⟩ := findTabIdx_some _ _ _ hidx
  rw [herase, List.map_append]
  rw [hsplit, List.map_append, List.map_cons] at ha
  rcases List.mem_append.mp ha with hm | hm
  · exact List.mem_append_left _ hm
  · rcases List.mem_cons.mp hm with hm | hm
    · exact absurd (hm.trans hxid) hne
    · exact List.mem_append_right _ hm

theorem mem_jsInsertIdx (i : Nat) (x t : α) (l : List α)
    (h : t ∈ jsInsertIdx i x l) : t = x ∨ t ∈ l := by
  unfold jsInsertIdx at h
  rcases List.mem_append.mp h with hm | hm
  · exact Or.inr (List.mem_of_mem_take hm)
  · rcases List.mem_cons.mp hm with hm | hm
    · exact Or.inl hm
    · exact Or.inr (List.mem_of_mem_drop hm)

theorem self_mem_jsInsertIdx (i : Nat) (x : α) (l : List α) :
    x ∈ jsInsertIdx i x l := by
  unfold jsInsertIdx
  exact List.mem_append_right _ (List.mem_cons_self _ _)

theorem activeOk_update (w : Workspace) (pid : String) (f : Pane → Pane)
    (p₀ : Pane) (hfind : findPaneList w.panes pid = some p₀)
    (hok : paneActiveOk p₀ → paneActiveOk (f p₀)) (h : ActiveOk w) :
    ActiveOk { w with panes := updatePaneList w.panes pid f } := by
  obtain ⟨_, l₁, l₂, hsplit, _, hupd⟩ := findPaneList_some _ _ _ hfind
  intro p hp
  show paneActiveOk p
  have hp2 : p ∈ updatePaneList w.panes pid f := hp
  rw [hupd f] at hp2
  have hmem0 : p₀ ∈ w.panes := by
    rw [hsplit]; exact List.mem_append_right _ (List.mem_cons_self _ _)
  rcases List.mem_append.mp hp2 with hm | hm
  · exact h p (by rw [hsplit]; exact List.mem_append_left _ hm)
  · rcases List.mem_cons.mp hm with hm | hm
    · rw [hm]; exact hok (h p₀ hmem0)
    · exact h p (by
        rw [hsplit]
        exact List.mem_append_right _ (List.mem_cons_of_mem _ hm))

theorem noEmpty_update (w : Workspace) (pid : String) (f : Pane → Pane)
    (p₀ : Pane) (hfind : findPaneList w.panes pid = some p₀)
    (hne : (∀ t ∈ p₀.tabs, t.id ≠ "") → ∀ t ∈ (f p₀).tabs, t.id ≠ "")
    (h : NoEmptyIds w) :
    NoEmptyIds { w with panes := updatePaneList w.panes pid f } := by
  obtain ⟨_, l₁, l₂, hsplit, _, hupd⟩ := findPaneList_some _ _ _ hfind
  intro p hp
  have hp2 : p ∈ updatePaneList w.panes pid f := hp
  rw [hupd f] at hp2
  have hmem0 : p₀ ∈ w.panes := by
    rw [hsplit]; exact List.mem_append_right _ (List.mem_cons_self _ _)
  rcases List.mem_append.mp hp2 with hm | hm
  · exact h p (by rw [hsplit]; exact List.mem_append_left _ hm)
  · rcases List.mem_cons.mp hm with hm | hm
    · rw [hm]; exact hne (h p₀ hmem0)
    · exact h p (by
        rw [hsplit]
        exact List.mem_append_right _ (List.mem_cons_of_mem _ hm))

theorem activeInv_update (w : Workspace) (pid : String) (f : Pane → Pane)
    (p₀ : Pane) (hfind : findPaneList w.panes pid = some p₀)
    (hne : (∀ t ∈ p₀.tabs, t.id ≠ "") → ∀ t ∈ (f p₀).tabs, t.id ≠ "")
    (hok : (∀ t ∈ p₀.tabs, t.id ≠ "") → paneActiveOk p₀ → paneActiveOk (f p₀))
    (h : ActiveInv w) :
    ActiveInv { w with panes := updatePaneList w.panes pid f } := by
  have hmem0 : p₀ ∈ w.panes := by
    obtain ⟨_, l₁, l₂, hsplit, _, _⟩ := findPaneList_some _ _ _ hfind
    rw [hsplit]; exact List.mem_append_right _ (List.mem_cons_self _ _)
  exact ⟨noEmpty_update w pid f p₀ hfind hne h.1,
    activeOk_update w pid f p₀ hfind (hok (h.1 p₀ hmem0)) h.2⟩

theorem activeInv_closePane (w : Workspace) (pid : String) (h : ActiveInv w) :
    ActiveInv (closePane w pid) := by
  unfold closePane
  by_cases hl : w.panes.length ≤ 1
  · rw [if_pos hl]; exact h
  · rw [if_neg hl]
    cases hidx : findPaneIdx w.panes pid with
    | none => exact h
    | some i =>
      refine ⟨fun p hp => ?_, fun p hp => ?_⟩
      · exact h.1 p ((List.eraseIdx_sublist w.panes i).subset hp)
      · exact h.2 p ((List.eraseIdx_sublist w.panes i).subset hp)

theorem activeOk_of_mem (w : Workspace) (h : ActiveOk w) (p : Pane)
    (hp : p ∈ w.panes) : paneActiveOk p := h p hp

theorem active_ne_empty (p : Pane) (hok : paneActiveOk p)
    (hne : ∀ t ∈ p.tabs, t.id ≠ "") :
    ∀ a, p.activeTabId = some a → a ≠ "" := by
  intro a ha
  have hok2 : paneActiveOk p := hok
  unfold paneActiveOk at hok2
  rw [ha] at hok2
  obtain ⟨t, ht, hti⟩ := List.mem_map.mp hok2
  rw [← hti]
  exact hne t ht

theorem findMatchingTab_mem (ts : List Tab) (conn : String) (ty : TabType)
    (sch tbl : Option String) (t : Tab)
    (h : findMatchingTab ts conn ty sch tbl = some t) : t ∈ ts := by
  induction ts with
  | nil => simp [findMatchingTab] at h
  | cons u rest ih =>
    by_cases hu : u.connectionId = conn ∧ u.type = ty ∧ u.schema = sch ∧ u.table = tbl
    · simp only [findMatchingTab, if_pos hu] at h
      rw [← Option.some.inj h]
      exact List.mem_cons_self _ _
    · simp only [findMatchingTab, if_neg hu] at h
      exact List.mem_cons_of_mem _ (ih h)

theorem filter_keep_mem (ts : List Tab) (keep : String)
    (h : keep ∈ ts.map Tab.id) :
    keep ∈ (ts.filter (fun t => t.id = keep)).map Tab.id := by
  obtain ⟨t, ht, hti⟩ := List.mem_map.mp h
  refine List.mem_map.mpr ⟨t, ?_, hti⟩
  refine List.mem_filter.mpr ⟨ht, ?_⟩
  simp [hti]

theorem activeInv_updateAny (w : Workspace) (pid : String) (f : Pane → Pane)
    (hne : ∀ p₀ ∈ w.panes, (∀ t ∈ p₀.tabs, t.id ≠ "") → ∀ t ∈ (f p₀).tabs, t.id ≠ "")
    (hok : ∀ p₀ ∈ w.panes, (∀ t ∈ p₀.tabs, t.id ≠ "") → paneActiveOk p₀ →
      paneActiveOk (f p₀))
    (h : ActiveInv w) :
    ActiveInv { w with panes := updatePaneList w.panes pid f } := by
  cases hfind : findPaneList w.panes pid with
  | none =>
    obtain ⟨_, hupd⟩ := findPaneList_none _ _ hfind
    rw [hupd f]
    exact h
  | some p₀ =>
    have hmem0 : p₀ ∈ w.panes := by
      obtain ⟨_, l₁, l₂, hsplit, _, _⟩ := findPaneList_some _ _ _ hfind
      rw [hsplit]; exact List.mem_append_right _ (List.mem_cons_self _ _)
    exact activeInv_update w pid f p₀ hfind (hne p₀ hmem0) (hok p₀ hmem0) h

theorem getElem_map_mem (ts : List Tab) (i : Nat) (a : String)
    (h : (ts[i]?).map Tab.id = some a) : a ∈ ts.map Tab.id := by
  cases hg : ts[i]? with
  | none => rw [hg] at h; cases h
  | some t =>
    rw [hg] at h
    have hta : t.id = a := Option.some.inj h
    have hm : t ∈ ts := by
      obtain ⟨hlt, he⟩ := List.getElem?_eq_some.mp hg
      exact he ▸ List.getElem_mem hlt
    exact hta ▸ List.mem_map_of_mem Tab.id hm

theorem eraseActive_ok (ts : List Tab) (tid : String) (i j : Nat)
    (active : Option String) (hidx : findTabIdx ts tid = some i)
    (hok : ∀ a, active = some a → a ∈ ts.map Tab.id) :
    ∀ a, (if active = some tid then jsOrNull (((ts.eraseIdx i)[j]?).map Tab.id)
      else active) = some a → a ∈ (ts.eraseIdx i).map Tab.id := by
  intro a ha
  by_cases hc : active = some tid
  · rw [if_pos hc] at ha
    exact jsOrNull_mem _ _ _ ha
  · rw [if_neg hc] at ha
    have hane : a ≠ tid := by
      intro hat
      exact hc (hat ▸ ha)
    exact mem_erase_of_ne ts tid a i hidx (hok a ha) hane

theorem sublist_noEmpty (ts ts' : List Tab) (hsub : List.Sublist ts' ts)
    (h : ∀ t ∈ ts, t.id ≠ "") : ∀ t ∈ ts', t.id ≠ "" :=
  fun t ht => h t (hsub.subset ht)

theorem mem_updateTabInPanes (ps : List Pane) (tid : String) (f : Tab → Tab)
    (hf : ∀ t, (f t).id = t.id) (p' : Pane) (hp : p' ∈ updateTabInPanes ps tid f) :
    ∃ p ∈ ps, p'.tabs.map Tab.id = p.tabs.map Tab.id ∧
      p'.activeTabId = p.activeTabId := by
  induction ps with
  | nil => cases hp
  | cons p rest ih =>
    by_cases hhit : hasTabId p.tabs tid
    · simp only [updateTabInPanes, hhit, if_true] at hp
      rcases List.mem_cons.mp hp with hm | hm
      · refine ⟨p, List.mem_cons_self _ _, ?_, ?_⟩
        · rw [hm]
          exact updateFirstTab_map_id p.tabs tid f hf
        · rw [hm]
      · exact ⟨p', List.mem_cons_of_mem _ hm, rfl, rfl⟩
    · simp only [updateTabInPanes, hhit, if_false, Bool.false_eq_true] at hp
      rcases List.mem_cons.mp hp with hm | hm
      · exact ⟨p, List.mem_cons_self _ _, by rw [hm], by rw [hm]⟩
      · obtain ⟨q, hq, h1, h2⟩ := ih hm
        exact ⟨q, List.mem_cons_of_mem _ hq, h1, h2⟩

theorem paneActiveOk_of_idsEq (p p' : Pane)
    (hids : p'.tabs.map Tab.id = p.tabs.map Tab.id)
    (hact : p'.activeTabId = p.activeTabId) (h : paneActiveOk p) :
    paneActiveOk p' := by
  unfold paneActiveOk at h ⊢
  rw [hact]
  cases ha : p.activeTabId with
  | none => trivial
  | some a =>
    rw [ha] at h
    show a ∈ p'.tabs.map Tab.id
    rw [hids]
    exact h

theorem noEmpty_of_idsEq (ts ts' : List Tab)
    (hids : ts'.map Tab.id = ts.map Tab.id)
    (h : ∀ t ∈ ts, t.id ≠ "") : ∀ t ∈ ts', t.id ≠ "" := by
  intro t ht
  have : t.id ∈ ts.map Tab.id := hids ▸ List.mem_map_of_mem Tab.id ht
  obtain ⟨u, hu, hui⟩ := List.mem_map.mp this
  rw [← hui]
  exact h u hu

theorem paneOk_mem (p : Pane) (h : paneActiveOk p) :
    ∀ a, p.activeTabId = some a → a ∈ p.tabs.map Tab.id := by
  intro a ha
  unfold paneActiveOk at h
  rw [ha] at h
  exact h

theorem activeInv_openTab (w : Workspace) (fid conn ti : String) (ty : TabType)
    (opts : OpenTabOptions) (hfid : fid ≠ "") (h : ActiveInv w) :
    ActiveInv (openTab w fid conn ty ti opts).2 := by
  cases hp : findPane w w.activePaneId with
  | none => simp only [openTab, hp]; exact h
  | some pane =>
    cases hE : (if opts.forceNew then none
        else findMatchingTab pane.tabs conn ty opts.schema opts.table) with
    | some t =>
      have htmem : t ∈ pane.tabs := by
        by_cases hforce : opts.forceNew
        · rw [if_pos hforce] at hE; cases hE
        · rw [if_neg hforce] at hE
          exact findMatchingTab_mem _ _ _ _ _ _ hE
      simp only [openTab, hp, hE]
      refine activeInv_update w _ _ pane hp (fun hne => hne) ?_ h
      intro _ _
      exact paneActiveOk_mk _ _ _
        (fun a ha => (Option.some.inj ha) ▸ List.mem_map_of_mem Tab.id htmem)
    | none =>
      simp only [openTab, hp, hE]
      refine activeInv_update w _ _ pane hp ?_ ?_ h
      · intro hne t ht
        rcases List.mem_append.mp ht with hm | hm
        · exact hne t hm
        · rcases List.mem_cons.mp hm with hm | hm
          · rw [hm]; exact hfid
          · cases hm
      · intro _ _
        refine paneActiveOk_mk _ _ _ (fun a ha => ?_)
        rw [← Option.some.inj ha]
        rw [List.map_append]
        exact List.mem_append_right _ (by simp)

theorem activeInv_closeTab (w : Workspace) (pid tid : String) (h : ActiveInv w) :
    ActiveInv (closeTab w pid tid) := by
  cases hp : findPane w pid with
  | none => simp only [closeTab, hp]; exact h
  | some pane =>
    cases hi : findTabIdx pane.tabs tid with
    | none => simp only [closeTab, hp, hi]; exact h
    | some idx =>
      simp only [closeTab, hp, hi]
      have hmem0 : pane ∈ w.panes := by
        obtain ⟨_, l₁, l₂, hsplit, _, _⟩ := findPaneList_some _ _ _ hp
        rw [hsplit]; exact List.mem_append_right _ (List.mem_cons_self _ _)
      have hw1 : ActiveInv { w with panes := updatePaneList w.panes pid (fun p => { p with tabs := pane.tabs.eraseIdx idx, activeTabId := if pane.activeTabId = some tid then jsOrNull (((pane.tabs.eraseIdx idx)[idx - 1]?).map Tab.id) else pane.activeTabId }) } := by
        refine activeInv_update w _ _ pane hp ?_ ?_ h
        · intro hne
          exact sublist_noEmpty pane.tabs _ (List.eraseIdx_sublist pane.tabs idx) hne
        · intro _ hok
          exact paneActiveOk_mk _ _ _
            (eraseActive_ok pane.tabs tid idx (idx - 1) pane.activeTabId hi
              (paneOk_mem pane hok))
      by_cases hc : (pane.tabs.eraseIdx idx).length = 0 ∧ 1 < (updatePaneList w.panes pid (fun p => { p with tabs := pane.tabs.eraseIdx idx, activeTabId := if pane.activeTabId = some tid then jsOrNull (((pane.tabs.eraseIdx idx)[idx - 1]?).map Tab.id) else pane.activeTabId })).length
      · rw [if_pos hc]; exact activeInv_closePane _ pid hw1
      · rw [if_neg hc]; exact hw1

theorem activeInv_closeOtherTabs (w : Workspace) (pid keep : String)
    (hkeep : ∀ p, findPane w pid = some p → keep ∈ p.tabs.map Tab.id)
    (h : ActiveInv w) : ActiveInv (closeOtherTabs w pid keep) := by
  cases hp : findPane w pid with
  | none => simp only [closeOtherTabs, hp]; exact h
  | some pane =>
    simp only [closeOtherTabs, hp]
    refine activeInv_update w _ _ pane hp ?_ ?_ h
    · intro hne
      exact sublist_noEmpty pane.tabs _ (List.filter_sublist _) hne
    · intro _ _
      exact paneActiveOk_mk _ _ _ (fun a ha =>
        (Option.some.inj ha) ▸ filter_keep_mem pane.tabs keep (hkeep pane hp))

theorem activeInv_closeSavedTabs (w : Workspace) (pid : String) (h : ActiveInv w) :
    ActiveInv (closeSavedTabs w pid) := by
  cases hp : findPane w pid with
  | none => simp only [closeSavedTabs, hp]; exact h
  | some pane =>
    simp only [closeSavedTabs, hp]
    have hsub : List.Sublist
        ((pane.tabs.filter (fun t => !t.isDirty)).foldl
          (fun acc t => removeFirstById acc t.id) pane.tabs) pane.tabs :=
      foldl_removeFirstById_sublist _ _
    have hw1 : ActiveInv { w with panes := updatePaneList w.panes pid (fun p => { p with tabs := (pane.tabs.filter (fun t => !t.isDirty)).foldl (fun acc t => removeFirstById acc t.id) pane.tabs, activeTabId := fixActive pane.activeTabId ((pane.tabs.filter (fun t => !t.isDirty)).foldl (fun acc t => removeFirstById acc t.id) pane.tabs) (jsOrNull ((((pane.tabs.filter (fun t => !t.isDirty)).foldl (fun acc t => removeFirstById acc t.id) pane.tabs)[0]?).map Tab.id)) }) } := by
      refine activeInv_update w _ _ pane hp ?_ ?_ h
      · intro hne
        exact sublist_noEmpty pane.tabs _ hsub hne
      · intro hne hok
        exact paneActiveOk_mk _ _ _
          (fixActive_ok pane.activeTabId _ _ (fun a ha => jsOrNull_mem _ 0 a ha)
            (active_ne_empty pane hok hne))
    by_cases hc : ((pane.tabs.filter (fun t => !t.isDirty)).foldl (fun acc t => removeFirstById acc t.id) pane.tabs).length = 0 ∧ 1 < (updatePaneList w.panes pid (fun p => { p with tabs := (pane.tabs.filter (fun t => !t.isDirty)).foldl (fun acc t => removeFirstById acc t.id) pane.tabs, activeTabId := fixActive pane.activeTabId ((pane.tabs.filter (fun t => !t.isDirty)).foldl (fun acc t => removeFirstById acc t.id) pane.tabs) (jsOrNull ((((pane.tabs.filter (fun t => !t.isDirty)).foldl (fun acc t => removeFirstById acc t.id) pane.tabs)[0]?).map Tab.id)) })).length
    · rw [if_pos hc]; exact activeInv_closePane _ pid hw1
    · rw [if_neg hc]; exact hw1

theorem activeInv_closeTabsToRight (w : Workspace) (pid tid : String)
    (h : ActiveInv w) : ActiveInv (closeTabsToRight w pid tid) := by
  cases hp : findPane w pid with
  | none => simp only [closeTabsToRight, hp]; exact h
  | some pane =>
    cases hi : findTabIdx pane.tabs tid with
    | none => simp only [closeTabsToRight, hp, hi]; exact h
    | some idx =>
      simp only [closeTabsToRight, hp, hi]
      refine activeInv_update w _ _ pane hp ?_ ?_ h
      · intro hne
        exact sublist_noEmpty pane.tabs _ (List.take_sublist _ _) hne
      · intro hne hok
        exact paneActiveOk_mk _ _ _
          (fixActive_ok pane.activeTabId _ _ (fun a ha => jsOrNull_mem _ _ a ha)
            (active_ne_empty pane hok hne))

theorem activeInv_closeActiveTab (w : Workspace) (h : ActiveInv w) :
    ActiveInv (closeActiveTab w) := by
  cases hp : findPane w w.activePaneId with
  | none => simp only [closeActiveTab, hp]; exact h
  | some pane =>
    cases ha : pane.activeTabId with
    | none => simp only [closeActiveTab, hp, ha]; exact h
    | some a =>
      simp only [closeActiveTab, hp, ha]
      by_cases he : a = ""
      · rw [if_pos he]; exact h
      · rw [if_neg he]; exact activeInv_closeTab w pane.id a h

theorem activeInv_nextTab (w : Workspace) (h : ActiveInv w) :
    ActiveInv (nextTab w) := by
  cases hp : findPane w w.activePaneId with
  | none => simp only [nextTab, hp]; exact h
  | some pane =>
    simp only [nextTab, hp]
    by_cases hlen : pane.tabs.length = 0
    · rw [if_pos hlen]; exact h
    · rw [if_neg hlen]
      refine activeInv_update w _ _ pane hp (fun hne => hne) ?_ h
      intro _ _
      exact paneActiveOk_mk _ _ _ (fun a ha => getElem_map_mem pane.tabs _ a ha)

theorem activeInv_previousTab (w : Workspace) (h : ActiveInv w) :
    ActiveInv (previousTab w) := by
  cases hp : findPane w w.activePaneId with
  | none => simp only [previousTab, hp]; exact h
  | some pane =>
    simp only [previousTab, hp]
    by_cases hlen : pane.tabs.length = 0
    · rw [if_pos hlen]; exact h
    · rw [if_neg hlen]
      refine activeInv_update w _ _ pane hp (fun hne => hne) ?_ h
      intro _ _
      exact paneActiveOk_mk _ _ _ (fun a ha => getElem_map_mem pane.tabs _ a ha)

theorem activeInv_updateTabInPanes (w : Workspace) (tid : String) (f : Tab → Tab)
    (hf : ∀ t, (f t).id = t.id) (h : ActiveInv w) :
    ActiveInv { w with panes := updateTabInPanes w.panes tid f } := by
  refine ⟨fun p' hp t ht => ?_, fun p' hp => ?_⟩
  · obtain ⟨p, hpm, hids, _⟩ := mem_updateTabInPanes w.panes tid f hf p' hp
    exact noEmpty_of_idsEq p.tabs p'.tabs hids (h.1 p hpm) t ht
  · obtain ⟨p, hpm, hids, hact⟩ := mem_updateTabInPanes w.panes tid f hf p' hp
    exact paneActiveOk_of_idsEq p p' hids hact (h.2 p hpm)

theorem activeInv_setTabs (w : Workspace) (pid : String) (tabs : List Tab)
    (htabs : ∀ t ∈ tabs, t.id ≠ "") (h : ActiveInv w) :
    ActiveInv (setTabs w pid tabs) := by
  cases hp : findPane w pid with
  | none => simp only [setTabs, hp]; exact h
  | some pane =>
    simp only [setTabs, hp]
    refine activeInv_update w _ _ pane hp (fun _ => htabs) ?_ h
    intro hne hok
    exact paneActiveOk_mk _ _ _
      (fixActive_ok pane.activeTabId _ _ (fun a ha => jsOrNull_mem _ 0 a ha)
        (active_ne_empty pane hok hne))

theorem activeInv_reorderTabs (w : Workspace) (pid : String) (tabs : List Tab)
    (htabs : ∀ t ∈ tabs, t.id ≠ "") (h : ActiveInv w) :
    ActiveInv (reorderTabs w pid tabs) :=
  activeInv_setTabs w pid tabs htabs h

theorem activeInv_addTabToPane (w : Workspace) (pid : String) (tab : Tab)
    (index : Nat) (htab : tab.id ≠ "") (h : ActiveInv w) :
    ActiveInv (addTabToPane w pid tab index) := by
  cases hp : findPane w pid with
  | none => simp only [addTabToPane, hp]; exact h
  | some pane =>
    simp only [addTabToPane, hp]
    by_cases hdup : hasTabId pane.tabs tab.id
    · rw [if_pos hdup]; exact h
    · rw [if_neg hdup]
      refine activeInv_update w _ _ pane hp ?_ ?_ h
      · intro hne t ht
        rcases mem_jsInsertIdx index tab t pane.tabs ht with hm | hm
        · rw [hm]; exact htab
        · exact hne t hm
      · intro _ _
        refine paneActiveOk_mk _ _ _ (fun a ha => ?_)
        rw [← Option.some.inj ha]
        exact List.mem_map_of_mem Tab.id (self_mem_jsInsertIdx index tab pane.tabs)

theorem activeInv_removeTabFromPane (w : Workspace) (pid tid : String)
    (h : ActiveInv w) : ActiveInv (removeTabFromPane w pid tid) := by
  cases hp : findPane w pid with
  | none => simp only [removeTabFromPane, hp]; exact h
  | some pane =>
    cases hi : findTabIdx pane.tabs tid with
    | none => simp only [removeTabFromPane, hp, hi]; exact h
    | some idx =>
      simp only [removeTabFromPane, hp, hi]
      have hw1 : ActiveInv { w with panes := updatePaneList w.panes pid (fun p => { p with tabs := pane.tabs.eraseIdx idx, activeTabId := if pane.activeTabId = some tid then jsOrNull (((pane.tabs.eraseIdx idx)[0]?).map Tab.id) else pane.activeTabId }) } := by
        refine activeInv_update w _ _ pane hp ?_ ?_ h
        · intro hne
          exact sublist_noEmpty pane.tabs _ (List.eraseIdx_sublist pane.tabs idx) hne
        · intro _ hok
          exact paneActiveOk_mk _ _ _
            (eraseActive_ok pane.tabs tid idx 0 pane.activeTabId hi
              (paneOk_mem pane hok))
      by_cases hc : (pane.tabs.eraseIdx idx).length = 0 ∧ 1 < (updatePaneList w.panes pid (fun p => { p with tabs := pane.tabs.eraseIdx idx, activeTabId := if pane.activeTabId = some tid then jsOrNull (((pane.tabs.eraseIdx idx)[0]?).map Tab.id) else pane.activeTabId })).length
      · rw [if_pos hc]; exact activeInv_closePane _ pid hw1
      · rw [if_neg hc]; exact hw1

theorem activeInv_mk (ps : List Pane) (apid : String) (sd : Option SplitDir)
    (h : ∀ p ∈ ps, (∀ t ∈ p.tabs, t.id ≠ "") ∧ paneActiveOk p) :
    ActiveInv { panes := ps, activePaneId := apid, splitDirection := sd } :=
  ⟨fun p hp => (h p hp).1, fun p hp => (h p hp).2⟩

theorem paneInv_eraseFix (t : Tab) (np p : Pane)
    (hinv : (∀ t' ∈ p.tabs, t'.id ≠ "") ∧ paneActiveOk p) :
    (∀ t' ∈ (if p.id = np.id then p else match findTabIdx p.tabs t.id with | none => p | some i => { p with tabs := p.tabs.eraseIdx i, activeTabId := if p.activeTabId = some t.id then jsOrNull (((p.tabs.eraseIdx i)[0]?).map Tab.id) else p.activeTabId }).tabs, t'.id ≠ "") ∧
    paneActiveOk (if p.id = np.id then p else match findTabIdx p.tabs t.id with | none => p | some i => { p with tabs := p.tabs.eraseIdx i, activeTabId := if p.activeTabId = some t.id then jsOrNull (((p.tabs.eraseIdx i)[0]?).map Tab.id) else p.activeTabId }) := by
  by_cases hid : p.id = np.id
  · rw [if_pos hid]
    exact hinv
  · rw [if_neg hid]
    cases hti : findTabIdx p.tabs t.id with
    | none => simp only [hti]; exact hinv
    | some i =>
      simp only [hti]
      exact ⟨sublist_noEmpty p.tabs _ (List.eraseIdx_sublist p.tabs i) hinv.1,
        paneActiveOk_mk _ _ _
          (eraseActive_ok p.tabs t.id i 0 p.activeTabId hti
            (paneOk_mem p hinv.2))⟩

theorem activeInv_splitPane (w : Workspace) (fid tgt : String) (pos : DockEdge)
    (tab : Option Tab) (htab : ∀ t, tab = some t → t.id ≠ "") (h : ActiveInv w) :
    ActiveInv (splitPane w fid tgt pos tab) := by
  by_cases hcap : 4 ≤ w.panes.length
  · simp only [splitPane, if_pos hcap]; exact h
  · cases tab with
    | none =>
      have hnp : (∀ t' ∈ ({ id := fid, tabs := ([] : List Tab), activeTabId := jsOrNull ((none : Option Tab).map Tab.id) } : Pane).tabs, t'.id ≠ "") ∧ paneActiveOk { id := fid, tabs := ([] : List Tab), activeTabId := jsOrNull ((none : Option Tab).map Tab.id) } := by
        refine ⟨by simp, paneActiveOk_mk _ _ _ (fun a ha => ?_)⟩
        simp [jsOrNull] at ha
      have hcore : ∀ (k : Nat) (apid : String) (sd : Option SplitDir), ActiveInv { panes := jsInsertIdx k { id := fid, tabs := ([] : List Tab), activeTabId := jsOrNull ((none : Option Tab).map Tab.id) } w.panes, activePaneId := apid, splitDirection := sd } := by
        intro k apid sd
        refine activeInv_mk _ apid sd (fun p hp => ?_)
        rcases mem_jsInsertIdx k _ p w.panes hp with hm | hm
        · rw [hm]; exact hnp
        · exact ⟨h.1 p hm, h.2 p hm⟩
      cases hidx : findPaneIdx w.panes tgt with
      | none =>
        simp only [splitPane, if_neg hcap, hidx]
        have h2 := hcore w.panes.length
        rw [jsInsertIdx_at_length] at h2
        exact h2 _ _
      | some ti =>
        by_cases hpos : pos = DockEdge.left ∨ pos = DockEdge.top
        · simp only [splitPane, if_neg hcap, hidx, if_pos hpos]
          exact hcore ti _ _
        · simp only [splitPane, if_neg hcap, hidx, if_neg hpos]
          exact hcore (ti + 1) _ _
    | some t =>
      have htne : t.id ≠ "" := htab t rfl
      have hnp : (∀ t' ∈ ({ id := fid, tabs := [t], activeTabId := jsOrNull ((some t).map Tab.id) } : Pane).tabs, t'.id ≠ "") ∧ paneActiveOk { id := fid, tabs := [t], activeTabId := jsOrNull ((some t).map Tab.id) } := by
        constructor
        · intro t' ht'
          rcases List.mem_cons.mp ht' with hm | hm
          · rw [hm]; exact htne
          · cases hm
        · refine paneActiveOk_mk _ _ _ (fun a ha => ?_)
          simp only [Option.map_some', jsOrNull, if_neg htne] at ha
          rw [← Option.some.inj ha]
          simp
      have hcore : ∀ (k : Nat) (apid : String) (sd : Option SplitDir), ActiveInv { panes := (jsInsertIdx k { id := fid, tabs := [t], activeTabId := jsOrNull ((some t).map Tab.id) } w.panes).map (fun pane => if pane.id = ({ id := fid, tabs := [t], activeTabId := jsOrNull ((some t).map Tab.id) } : Pane).id then pane else match findTabIdx pane.tabs t.id with | none => pane | some tabIndex => { pane with tabs := pane.tabs.eraseIdx tabIndex, activeTabId := if pane.activeTabId = some t.id then jsOrNull (((pane.tabs.eraseIdx tabIndex)[0]?).map Tab.id) else pane.activeTabId }), activePaneId := apid, splitDirection := sd } := by
        intro k apid sd
        refine activeInv_mk _ apid sd (fun p hp => ?_)
        obtain ⟨q, hq, hqe⟩ := List.mem_map.mp hp
        have hqinv : (∀ t' ∈ q.tabs, t'.id ≠ "") ∧ paneActiveOk q := by
          rcases mem_jsInsertIdx k _ q w.panes hq with hm | hm
          · rw [hm]; exact hnp
          · exact ⟨h.1 q hm, h.2 q hm⟩
        rw [← hqe]
        exact paneInv_eraseFix t _ q hqinv
      cases hidx : findPaneIdx w.panes tgt with
      | none =>
        simp only [splitPane, if_neg hcap, hidx]
        have h2 := hcore w.panes.length
        rw [jsInsertIdx_at_length] at h2
        exact h2 _ _
      | some ti =>
        by_cases hpos : pos = DockEdge.left ∨ pos = DockEdge.top
        · simp only [splitPane, if_neg hcap, hidx, if_pos hpos]
          exact hcore ti _ _
        · simp only [splitPane, if_neg hcap, hidx, if_neg hpos]
          exact hcore (ti + 1) _ _

theorem activeInv_moveTab (w : Workspace) (fromPid toPid tid : String) (toIdx : Nat)
    (h : ActiveInv w) : ActiveInv (moveTab w fromPid toPid tid toIdx) := by
  cases hf : findPane w fromPid with
  | none => simp only [moveTab, hf]; exact h
  | some fromPane =>
    cases ht : findPane w toPid with
    | none => simp only [moveTab, hf, ht]; exact h
    | some toPane =>
      cases hi : findTabIdx fromPane.tabs tid with
      | none => simp only [moveTab, hf, ht, hi]; exact h
      | some tabIndex =>
        cases hg : fromPane.tabs[tabIndex]? with
        | none => simp only [moveTab, hf, ht, hi, hg]; exact h
        | some tab =>
          obtain ⟨u₁, x, u₂, hsplit, hlen1, hxid, hfree, herase, hget⟩ :=
            findTabIdx_some _ _ _ hi
          have hxtab : x = tab := by
            rw [hget] at hg; exact Option.some.inj hg
          subst hxtab
          have hfmem : fromPane ∈ w.panes := by
            obtain ⟨_, l₁, l₂, hsp, _, _⟩ := findPaneList_some _ _ _ hf
            rw [hsp]; exact List.mem_append_right _ (List.mem_cons_self _ _)
          have htabmem : x ∈ fromPane.tabs := by
            rw [hsplit]
            exact List.mem_append_right _ (List.mem_cons_self _ _)
          have htabne : x.id ≠ "" := h.1 fromPane hfmem x htabmem
          simp only [moveTab, hf, ht, hi, hg]
          by_cases hsame : fromPid = toPid
          · rw [if_pos hsame]
            refine activeInv_update w fromPid _ fromPane hf ?_ ?_ h
            · intro hne t' ht'
              rcases mem_jsInsertIdx toIdx x t' (fromPane.tabs.eraseIdx tabIndex) ht' with hm | hm
              · rw [hm]; exact htabne
              · exact hne t' ((List.eraseIdx_sublist fromPane.tabs tabIndex).subset hm)
            · intro _ _
              refine paneActiveOk_mk _ _ _ (fun a ha => ?_)
              rw [← Option.some.inj ha, ← hxid]
              exact List.mem_map_of_mem Tab.id
                (self_mem_jsInsertIdx toIdx x (fromPane.tabs.eraseIdx tabIndex))
          · rw [if_neg hsame]
            have hw1 : ActiveInv { w with panes := updatePaneList w.panes fromPid (fun p => { p with tabs := p.tabs.eraseIdx tabIndex, activeTabId := if p.activeTabId = some tid then jsOrNull (((p.tabs.eraseIdx tabIndex)[0]?).map Tab.id) else p.activeTabId }) } := by
              refine activeInv_update w fromPid _ fromPane hf ?_ ?_ h
              · intro hne
                exact sublist_noEmpty fromPane.tabs _
                  (List.eraseIdx_sublist fromPane.tabs tabIndex) hne
              · intro _ hok
                exact paneActiveOk_mk _ _ _
                  (eraseActive_ok fromPane.tabs tid tabIndex 0 fromPane.activeTabId hi
                    (paneOk_mem fromPane hok))
            refine activeInv_updateAny { w with panes := updatePaneList w.panes fromPid (fun p => { p with tabs := p.tabs.eraseIdx tabIndex, activeTabId := if p.activeTabId = some tid then jsOrNull (((p.tabs.eraseIdx tabIndex)[0]?).map Tab.id) else p.activeTabId }) } toPid (fun p => { p with tabs := jsInsertIdx toIdx x p.tabs, activeTabId := some tid }) ?_ ?_ hw1
            · intro p₀ _ hne t' ht'
              rcases mem_jsInsertIdx toIdx x t' p₀.tabs ht' with hm | hm
              · rw [hm]; exact htabne
              · exact hne t' hm
            · intro p₀ _ _ _
              refine paneActiveOk_mk _ _ _ (fun a ha => ?_)
              rw [← Option.some.inj ha, ← hxid]
              exact List.mem_map_of_mem Tab.id (self_mem_jsInsertIdx toIdx x p₀.tabs)

theorem activeInv_setActiveTab (w : Workspace) (pid tid : String)
    (hmem : ∀ p, findPane w pid = some p → tid ∈ p.tabs.map Tab.id)
    (h : ActiveInv w) : ActiveInv (setActiveTab w pid tid) := by
  cases hp : findPane w pid with
  | none => simp only [setActiveTab, hp]; exact h
  | some pane =>
    simp only [setActiveTab, hp]
    refine activeInv_update w _ _ pane hp (fun hne => hne) ?_ h
    intro _ _
    exact paneActiveOk_mk _ _ _
      (fun a ha => (Option.some.inj ha) ▸ hmem pane hp)

theorem activeInv_setActivePane (w : Workspace) (pid : String) (h : ActiveInv w) :
    ActiveInv (setActivePane w pid) := h

theorem activeInv_updateTabQuery (w : Workspace) (tid q : String) (h : ActiveInv w) :
    ActiveInv (updateTabQuery w tid q) :=
  activeInv_updateTabInPanes w tid (fun t => { t with query := some q })
    (fun _ => rfl) h

theorem activeInv_setTabDirty (w : Workspace) (tid : String) (d : Bool)
    (h : ActiveInv w) : ActiveInv (setTabDirty w tid d) :=
  activeInv_updateTabInPanes w tid (fun t => { t with isDirty := d })
    (fun _ => rfl) h

theorem activeInv_updateTabMetadata (w : Workspace) (tid : String)
    (m : List (String × String)) (h : ActiveInv w) :
    ActiveInv (updateTabMetadata w tid m) :=
  activeInv_updateTabInPanes w tid (fun t => { t with metadata := mergeMeta t.metadata m })
    (fun _ => rfl) h

theorem activeInv_updateTabTitle (w : Workspace) (tid ti : String) (h : ActiveInv w) :
    ActiveInv (updateTabTitle w tid ti) :=
  activeInv_updateTabInPanes w tid (fun t => { t with title := ti })
    (fun _ => rfl) h

/-- Workspace states reachable by the store's operations from the initial
single-pane state, under the calling discipline of the active-tab
amendment: generated ids (`generateId` output is never the empty string)
are non-empty, `setTabs` / `reorderTabs` receive real tabs (non-empty
ids), and `setActiveTab` / `closeOtherTabs` are only invoked with a tab
id actually present in the addressed pane. -/
inductive ReachA : Workspace → Prop where
  | rInit : ReachA initialWorkspace
  | rOpenTab (w : Workspace) (fid conn ti : String) (ty : TabType)
      (opts : OpenTabOptions) : ReachA w → fid ≠ "" →
      ReachA (openTab w fid conn ty ti opts).2
  | rCloseTab (w : Workspace) (pid tid : String) : ReachA w →
      ReachA (closeTab w pid tid)
  | rCloseOtherTabs (w : Workspace) (pid keep : String) : ReachA w →
      (∀ p, findPane w pid = some p → keep ∈ p.tabs.map Tab.id) →
      ReachA (closeOtherTabs w pid keep)
  | rCloseSavedTabs (w : Workspace) (pid : String) : ReachA w →
      ReachA (closeSavedTabs w pid)
  | rCloseTabsToRight (w : Workspace) (pid tid : String) : ReachA w →
      ReachA (closeTabsToRight w pid tid)
  | rCloseActiveTab (w : Workspace) : ReachA w → ReachA (closeActiveTab w)
  | rNextTab (w : Workspace) : ReachA w → ReachA (nextTab w)
  | rPreviousTab (w : Workspace) : ReachA w → ReachA (previousTab w)
  | rSetTabs (w : Workspace) (pid : String) (tabs : List Tab) : ReachA w →
      (∀ t ∈ tabs, t.id ≠ "") → ReachA (setTabs w pid tabs)
  | rReorderTabs (w : Workspace) (pid : String) (tabs : List Tab) : ReachA w →
      (∀ t ∈ tabs, t.id ≠ "") → ReachA (reorderTabs w pid tabs)
  | rAddTabToPane (w : Workspace) (pid : String) (tab : Tab) (index : Nat) :
      ReachA w → tab.id ≠ "" → ReachA (addTabToPane w pid tab index)
  | rRemoveTabFromPane (w : Workspace) (pid tid : String) : ReachA w →
      ReachA (removeTabFromPane w pid tid)
  | rSetActiveTab (w : Workspace) (pid tid : String) : ReachA w →
      (∀ p, findPane w pid = some p → tid ∈ p.tabs.map Tab.id) →
      ReachA (setActiveTab w pid tid)
  | rSetActivePane (w : Workspace) (pid : String) : ReachA w →
      ReachA (setActivePane w pid)
  | rSplitPane (w : Workspace) (fid tgt : String) (pos : DockEdge)
      (tab : Option Tab) : ReachA w → (∀ t, tab = some t → t.id ≠ "") →
      ReachA (splitPane w fid tgt pos tab)
  | rClosePane (w : Workspace) (pid : String) : ReachA w →
      ReachA (closePane w pid)
  | rMoveTab (w : Workspace) (fromPid toPid tid : String) (toIdx : Nat) :
      ReachA w → ReachA (moveTab w fromPid toPid tid toIdx)
  | rUpdateTabQuery (w : Workspace) (tid q : String) : ReachA w →
      ReachA (updateTabQuery w tid q)
  | rSetTabDirty (w : Workspace) (tid : String) (d : Bool) : ReachA w →
      ReachA (setTabDirty w tid d)
  | rUpdateTabMetadata (w : Workspace) (tid : String)
      (m : List (String × String)) : ReachA w →
      ReachA (updateTabMetadata w tid m)
  | rUpdateTabTitle (w : Workspace) (tid ti : String) : ReachA w →
      ReachA (updateTabTitle w tid ti)

theorem reachA_activeInv (w : Workspace) (h : ReachA w) : ActiveInv w := by
  induction h with
  | rInit =>
    refine ⟨fun p hp t ht => ?_, fun p hp => ?_⟩
    · rcases List.mem_cons.mp hp with hm | hm
      · rw [hm] at ht; cases ht
      · cases hm
    · rcases List.mem_cons.mp hp with hm | hm
      · rw [hm]; trivial
      · cases hm
  | rOpenTab w fid conn ti ty opts _ hfid ih =>
    exact activeInv_openTab w fid conn ti ty opts hfid ih
  | rCloseTab w pid tid _ ih => exact activeInv_closeTab w pid tid ih
  | rCloseOtherTabs w pid keep _ hkeep ih =>
    exact activeInv_closeOtherTabs w pid keep hkeep ih
  | rCloseSavedTabs w pid _ ih => exact activeInv_closeSavedTabs w pid ih
  | rCloseTabsToRight w pid tid _ ih =>
    exact activeInv_closeTabsToRight w pid tid ih
  | rCloseActiveTab w _ ih => exact activeInv_closeActiveTab w ih
  | rNextTab w _ ih => exact activeInv_nextTab w ih
  | rPreviousTab w _ ih => exact activeInv_previousTab w ih
  | rSetTabs w pid tabs _ htabs ih => exact activeInv_setTabs w pid tabs htabs ih
  | rReorderTabs w pid tabs _ htabs ih =>
    exact activeInv_reorderTabs w pid tabs htabs ih
  | rAddTabToPane w pid tab index _ htab ih =>
    exact activeInv_addTabToPane w pid tab index htab ih
  | rRemoveTabFromPane w pid tid _ ih =>
    exact activeInv_removeTabFromPane w pid tid ih
  | rSetActiveTab w pid tid _ hmem ih =>
    exact activeInv_setActiveTab w pid tid hmem ih
  | rSetActivePane w pid _ ih => exact activeInv_setActivePane w pid ih
  | rSplitPane w fid tgt pos tab _ htab ih =>
    exact activeInv_splitPane w fid tgt pos tab htab ih
  | rClosePane w pid _ ih => exact activeInv_closePane w pid ih
  | rMoveTab w fromPid toPid tid toIdx _ ih =>
    exact activeInv_moveTab w fromPid toPid tid toIdx ih
  | rUpdateTabQuery w tid q _ ih => exact activeInv_updateTabQuery w tid q ih
  | rSetTabDirty w tid d _ ih => exact activeInv_setTabDirty w tid d ih
  | rUpdateTabMetadata w tid m _ ih =>
    exact activeInv_updateTabMetadata w tid m ih
  | rUpdateTabTitle w tid ti _ ih => exact activeInv_updateTabTitle w tid ti ih

/-- C4: in every workspace state reachable by the store's operations from
the initial single-pane state — with generated ids non-empty,
`setTabs` / `reorderTabs` given real tabs, and `setActiveTab` /
`closeOtherTabs` invoked with a tab id present in the addressed pane —
each pane's `activeTabId` is either null or the id of a tab present in
that pane's tabs sequence. -/
theorem reachable_active_tab_valid (w : Workspace) (h : ReachA w) :
    ActiveOk w :=
  (reachA_activeInv w h).2

theorem reachable_active_tab_valid_witness :
    ActiveOk (setActiveTab sampleW1 "main" "t1") :=
  reachable_active_tab_valid (setActiveTab sampleW1 "main" "t1")
    (ReachA.rSetActiveTab sampleW1 "main" "t1"
      (ReachA.rOpenTab initialWorkspace "t1" "c1" "users" TabType.dataGrid
        { schema := some "public", table := some "users" }
        ReachA.rInit (by decide))
      (by decide))

/-! ### C5: the hover-timer discipline of the mousemove machine -/

/-- The timer invariant of the mousemove machine: either no timer is
scheduled, or exactly one is — it carries the stored handle, its captured
position is the current non-center pending classification, and its
deadline lies exactly one hover delay after the instant the pending
classification last changed. -/
def HInv (s : HoverState) : Prop :=
  s.timers = [] ∨
  ∃ tm, s.timers = [tm] ∧ s.hoverTimeout = some tm.handle ∧
    s.pendingPosition = some tm.pos ∧ tm.pos ≠ DockPos.center ∧
    tm.deadline = s.pendingSince + hoverDelay

theorem hInv_weak (s : HoverState) (h : HInv s) :
    s.timers = [] ∨ ∃ tm, s.timers = [tm] ∧ s.hoverTimeout = some tm.handle := by
  rcases h with h | ⟨tm, h1, h2, _⟩
  · exact Or.inl h
  · exact Or.inr ⟨tm, h1, h2⟩

theorem clear_timers_nil (s : HoverState)
    (h : s.timers = [] ∨ ∃ tm, s.timers = [tm] ∧ s.hoverTimeout = some tm.handle) :
    (clearHoverTimeoutFn s).timers = [] := by
  cases hh : s.hoverTimeout with
  | none =>
    simp only [clearHoverTimeoutFn, hh]
    rcases h with h | ⟨tm, _, hto⟩
    · exact h
    · rw [hh] at hto; cases hto
  | some hdl =>
    simp only [clearHoverTimeoutFn, hh]
    rcases h with h | ⟨tm, htm, hto⟩
    · simp [h]
    · rw [hh] at hto
      have he : hdl = tm.handle := Option.some.inj hto
      rw [htm, he]
      simp

theorem clear_now (s : HoverState) : (clearHoverTimeoutFn s).now = s.now := by
  cases hh : s.hoverTimeout <;> simp only [clearHoverTimeoutFn, hh]

theorem clear_pendingPosition (s : HoverState) :
    (clearHoverTimeoutFn s).pendingPosition = s.pendingPosition := by
  cases hh : s.hoverTimeout <;> simp only [clearHoverTimeoutFn, hh]

theorem clear_pendingSince (s : HoverState) :
    (clearHoverTimeoutFn s).pendingSince = s.pendingSince := by
  cases hh : s.hoverTimeout <;> simp only [clearHoverTimeoutFn, hh]

theorem clear_ds (s : HoverState) : (clearHoverTimeoutFn s).ds = s.ds := by
  cases hh : s.hoverTimeout <;> simp only [clearHoverTimeoutFn, hh]

theorem sched_timers (C : HoverState)
    (hC : C.timers = [] ∨ ∃ tm, C.timers = [tm] ∧ C.hoverTimeout = some tm.handle)
    (tm : HoverTimer) : (clearHoverTimeoutFn C).timers ++ [tm] = [tm] := by
  rw [clear_timers_nil C hC]
  rfl

theorem hInv_move (pid : String) (x y : ℚ) (rect? : Option PaneRect)
    (s : HoverState) (h : HInv s) :
    HInv (handlePaneMouseMove pid x y rect? s) := by
  simp only [handlePaneMouseMove]
  split
  · exact Or.inl (clear_timers_nil _ (hInv_weak s h))
  · split
    · exact h
    · rename_i rect
      generalize (if (x - rect.x) / rect.width > 1 - hoverEdge then DockPos.right
        else if (y - rect.y) / rect.height > 1 - hoverEdge then DockPos.bottom
        else DockPos.center) = np
      by_cases hsup : s.ds.sourcePaneId = some pid ∧ np = DockPos.center
      · rw [if_pos hsup]
        exact Or.inl (clear_timers_nil _ (hInv_weak s h))
      · rw [if_neg hsup]
        by_cases hchg : some np ≠ s.pendingPosition
        · rw [if_pos hchg]
          by_cases hnc : np ≠ DockPos.center
          · rw [if_pos hnc]
            right
            refine ⟨{ handle := (clearHoverTimeoutFn { s with pendingPosition := some np, pendingSince := s.now }).nextHandle, deadline := (clearHoverTimeoutFn { s with pendingPosition := some np, pendingSince := s.now }).now + hoverDelay, pos := np }, ?_, rfl, ?_, hnc, ?_⟩
            · exact sched_timers { s with pendingPosition := some np, pendingSince := s.now } (hInv_weak s h) _
            · show (clearHoverTimeoutFn _).pendingPosition = _
              rw [clear_pendingPosition]
            · show (clearHoverTimeoutFn _).now + hoverDelay =
                (clearHoverTimeoutFn _).pendingSince + hoverDelay
              rw [clear_now, clear_pendingSince]
          · rw [if_neg hnc]
            exact Or.inl (clear_timers_nil _ (hInv_weak s h))
        · rw [if_neg hchg]
          exact h

theorem hInv_fire (pid : String) (tm : HoverTimer) (s : HoverState)
    (hmem : tm ∈ s.timers) (h : HInv s) : HInv (fireTimer pid tm s) := by
  left
  show s.timers.filter (fun x => x.handle != tm.handle) = []
  rcases h with h0 | ⟨tm', h1, _, _, _, _⟩
  · rw [h0]; rfl
  · rw [h1] at hmem ⊢
    have he : tm = tm' := by
      rcases List.mem_cons.mp hmem with hm | hm
      · exact hm
      · cases hm
    rw [← he]
    simp

theorem hInv_leave (pid : String) (s : HoverState) (h : HInv s) :
    HInv (handlePaneMouseLeave pid s) := by
  simp only [handlePaneMouseLeave]
  split
  · exact Or.inl (clear_timers_nil _ (hInv_weak s h))
  · exact Or.inl (clear_timers_nil _ (hInv_weak s h))

theorem hReach_hInv (pid : String) (s : HoverState) (h : HReach pid s) :
    HInv s := by
  induction h with
  | start t0 tab src rects => exact Or.inl rfl
  | step hr hs ih =>
    cases hs with
    | move t x y rect? s₀ ht hd => exact hInv_move pid x y rect? _ ih
    | fire tm s₀ hmem hnow => exact hInv_fire pid tm _ hmem ih
    | leave t s₀ ht hd => exact hInv_leave pid _ ih

theorem move_no_commit (pid : String) (x y : ℚ) (rect? : Option PaneRect)
    (s : HoverState) :
    (handlePaneMouseMove pid x y rect? s).ds.dropPosition = s.ds.dropPosition ∨
    (handlePaneMouseMove pid x y rect? s).ds.dropPosition = none := by
  simp only [handlePaneMouseMove]
  split
  · left
    show (clearHoverTimeoutFn _).ds.dropPosition = s.ds.dropPosition
    rw [clear_ds]
  · split
    · left; rfl
    · rename_i rect
      generalize (if (x - rect.x) / rect.width > 1 - hoverEdge then DockPos.right
        else if (y - rect.y) / rect.height > 1 - hoverEdge then DockPos.bottom
        else DockPos.center) = np
      by_cases hsup : s.ds.sourcePaneId = some pid ∧ np = DockPos.center
      · rw [if_pos hsup]
        left
        show (clearHoverTimeoutFn _).ds.dropPosition = s.ds.dropPosition
        rw [clear_ds]
      · rw [if_neg hsup]
        by_cases hchg : some np ≠ s.pendingPosition
        · rw [if_pos hchg]
          by_cases hnc : np ≠ DockPos.center
          · rw [if_pos hnc]
            left
            show (clearHoverTimeoutFn _).ds.dropPosition = s.ds.dropPosition
            rw [clear_ds]
          · rw [if_neg hnc]
            right
            rfl
        · rw [if_neg hchg]
          left
          rfl

/-- C5: along the mousemove-driven path, in every state reachable during
a drag at most one hover timer is pending; a pointer move never writes a
position into the authoritative `dropPosition` (it at most clears it);
and the only committing transition — a scheduled timer firing — writes
exactly the current pending classification, at the instant lying one full
hover delay (400ms) after that pending classification last changed. -/
theorem hover_commit_discipline (pid : String) (s : HoverState)
    (h : HReach pid s) :
    s.timers.length ≤ 1 ∧
    (∀ (t : Nat) (x y : ℚ) (rect? : Option PaneRect),
      (handlePaneMouseMove pid x y rect? { s with now := t }).ds.dropPosition
          = s.ds.dropPosition ∨
      (handlePaneMouseMove pid x y rect? { s with now := t }).ds.dropPosition
          = none) ∧
    (∀ tm ∈ s.timers,
      (fireTimer pid tm s).ds.dropPosition = s.pendingPosition ∧
      (fireTimer pid tm s).now = s.pendingSince + hoverDelay) := by
  have hinv := hReach_hInv pid s h
  refine ⟨?_, ?_, ?_⟩
  · rcases hinv with h0 | ⟨tm, h1, _⟩
    · rw [h0]; exact Nat.zero_le 1
    · rw [h1]; exact le_refl 1
  · intro t x y rect?
    exact move_no_commit pid x y rect? { s with now := t }
  · intro tm hmem
    rcases hinv with h0 | ⟨tm', h1, hto, hpp, hnc, hdl⟩
    · rw [h0] at hmem; cases hmem
    · rw [h1] at hmem
      have he : tm = tm' := by
        rcases List.mem_cons.mp hmem with hm | hm
        · exact hm
        · cases hm
      subst he
      constructor
      · show some tm.pos = s.pendingPosition
        exact hpp.symm
      · show tm.deadline = s.pendingSince + hoverDelay
        exact hdl

theorem hover_commit_discipline_witness :
    ((fireTimer "b" { handle := 0, deadline := 400, pos := DockPos.right }
        (handlePaneMouseMove "b" 95 50 (some sampleRect)
          { hoverStart 0 sampleTab "a" [("b", sampleRect)] with now := 0 })).ds.dropPosition
      = (handlePaneMouseMove "b" 95 50 (some sampleRect)
          { hoverStart 0 sampleTab "a" [("b", sampleRect)] with now := 0 }).pendingPosition) ∧
    ((fireTimer "b" { handle := 0, deadline := 400, pos := DockPos.right }
        (handlePaneMouseMove "b" 95 50 (some sampleRect)
          { hoverStart 0 sampleTab "a" [("b", sampleRect)] with now := 0 })).now
      = (handlePaneMouseMove "b" 95 50 (some sampleRect)
          { hoverStart 0 sampleTab "a" [("b", sampleRect)] with now := 0 }).pendingSince
        + hoverDelay) := by
  have hreach : HReach "b" (handlePaneMouseMove "b" 95 50 (some sampleRect)
      { hoverStart 0 sampleTab "a" [("b", sampleRect)] with now := 0 }) :=
    HReach.step (HReach.start 0 sampleTab "a" [("b", sampleRect)])
      (HStep.move 0 95 50 (some sampleRect)
        (hoverStart 0 sampleTab "a" [("b", sampleRect)])
        (le_refl 0) (fun tm hm => absurd hm (List.not_mem_nil tm)))
  have hmem : ({ handle := 0, deadline := 400, pos := DockPos.right } : HoverTimer)
      ∈ (handlePaneMouseMove "b" 95 50 (some sampleRect)
          { hoverStart 0 sampleTab "a" [("b", sampleRect)] with now := 0 }).timers := by
    norm_num [handlePaneMouseMove, hoverStart, clearHoverTimeoutFn, hoverEdge,
      sampleRect, hoverDelay]
    simp
  exact (hover_commit_discipline "b" _ hreach).2.2 _ hmem

/-! ### C6: the top edge band -/

/-- The mousemove machine after one move into pane b's top band at time
0. -/
def topBandState1 : HoverState :=
  handlePaneMouseMove "b" 50 5 (some sampleRect)
    { hoverStart 0 sampleTab "a" [("b", sampleRect)] with now := 0 }

/-- The same machine after a second move at the same top-band point at
time 500, past the full hover delay. -/
def topBandTrace : HoverState :=
  handlePaneMouseMove "b" 50 5 (some sampleRect) { topBandState1 with now := 500 }

theorem topBandState1_eq : topBandState1 =
    { now := 0, dropPosition := none, pendingPosition := some DockPos.center,
      hoverTimeout := none, timers := [], nextHandle := 0, pendingSince := 0,
      ds := { isDragging := true, draggedTab := some sampleTab,
              sourcePaneId := some "a", targetPaneId := none,
              dropPosition := none, paneRects := [("b", sampleRect)] } } := by
  norm_num [topBandState1, handlePaneMouseMove, hoverStart, clearHoverTimeoutFn,
    hoverEdge, sampleRect]
  simp

theorem topBandTrace_eq : topBandTrace =
    { now := 500, dropPosition := none, pendingPosition := some DockPos.center,
      hoverTimeout := none, timers := [], nextHandle := 0, pendingSince := 0,
      ds := { isDragging := true, draggedTab := some sampleTab,
              sourcePaneId := some "a", targetPaneId := none,
              dropPosition := none, paneRects := [("b", sampleRect)] } } := by
  norm_num [topBandTrace, topBandState1_eq, handlePaneMouseMove,
    clearHoverTimeoutFn, hoverEdge, sampleRect]
  simp

/-- C6 counterexample: the mousemove-path edge classifier knows only
right, bottom and center, so a pointer resting in the docking service's
top band — here (50, 5) on a 100×100 pane, which `calculateDropPosition`
classifies as top — for longer than the full hover delay commits
nothing: the endDrag snapshot carries no drop position and no target
pane. -/
theorem mousemove_top_band_counterexample :
    calculateDropPosition (hoverStart 0 sampleTab "a" [("b", sampleRect)]).ds
        50 5 "b" = DockPos.top ∧
    hoverDelay ≤ 500 ∧
    HReach "b" topBandTrace ∧
    topBandTrace.now = 500 ∧
    (endDrag topBandTrace.ds).1.dropPosition = none ∧
    (endDrag topBandTrace.ds).1.targetPaneId = none := by
  refine ⟨?_, by norm_num [hoverDelay], ?_, ?_, ?_, ?_⟩
  · norm_num [calculateDropPosition, lookupRect, hoverStart, sampleRect,
      edgeThreshold]
  · have h1 : HStep "b" (hoverStart 0 sampleTab "a" [("b", sampleRect)])
        topBandState1 :=
      HStep.move 0 50 5 (some sampleRect)
        (hoverStart 0 sampleTab "a" [("b", sampleRect)])
        (le_refl 0) (fun tm hm => absurd hm (List.not_mem_nil tm))
    have h2 : HStep "b" topBandState1 topBandTrace :=
      HStep.move 500 50 5 (some sampleRect) topBandState1
        (by rw [topBandState1_eq]; norm_num)
        (by rw [topBandState1_eq]; intro tm hm; cases hm)
    exact HReach.step
      (HReach.step (HReach.start 0 sampleTab "a" [("b", sampleRect)]) h1) h2
  · rw [topBandTrace_eq]
  · rw [topBandTrace_eq]
    rfl
  · rw [topBandTrace_eq]
    rfl

/-- C6 (amended to the dragover path): with a drag in progress and the
pointer inside the registered pane's top band — below the 0.2 height
threshold, outside the left and right bands — a single dragover event
followed by `endDrag` yields a snapshot with drop position top and that
pane as the target; no delay is involved. -/
theorem dragover_top_band_commit (s : DragServiceState) (pid : String)
    (r : PaneRect) (x y : ℚ)
    (hdrag : s.isDragging = true)
    (hr : lookupRect s pid = some r)
    (hx1 : ¬ (x - r.x) / r.width < edgeThreshold)
    (hx2 : ¬ (x - r.x) / r.width > 1 - edgeThreshold)
    (hy : (y - r.y) / r.height < edgeThreshold) :
    (endDrag (handleDragOver s x y pid).2).1.dropPosition = some DockPos.top ∧
    (endDrag (handleDragOver s x y pid).2).1.targetPaneId = some pid := by
  have hcalc : calculateDropPosition s x y pid = DockPos.top := by
    simp only [calculateDropPosition, hr]
    rw [if_neg hx1, if_neg hx2, if_pos hy]
  simp only [handleDragOver, hdrag]
  constructor <;> simp [endDrag, hcalc]

theorem dragover_top_band_commit_witness :
    (endDrag (handleDragOver sampleDS 50 5 "b").2).1.dropPosition
        = some DockPos.top ∧
    (endDrag (handleDragOver sampleDS 50 5 "b").2).1.targetPaneId = some "b" :=
  dragover_top_band_commit sampleDS "b" sampleRect 50 5 rfl rfl
    (by norm_num [sampleRect, edgeThreshold])
    (by norm_num [sampleRect, edgeThreshold])
    (by norm_num [sampleRect, edgeThreshold])

end DbGui
